import Mathlib

/-!
ofShader: include preprocessor and handle reference counting.

A shallow embedding of `libs/openFrameworks/gl/ofShader.cpp` (openFrameworks 0.9.0).

Conventions of the embedding

* `std::string` is `List Char` (abbreviated `Str`).
* `GLuint`, `GLenum` are `Nat`; `GLint` and the `int` reference counts are `Int`
  (no arithmetic is done on handles; counts are only incremented and decremented
  by one, and signed overflow, which needs 2^31 live owners, is not modelled).
* Global state (the two static count tables) and every observable side effect
  (native GL calls, log lines, file reads) are threaded explicitly: a `GLWorld`
  carries the tables and an append-only list of `Event`s.
* Values returned by the native API are arguments of the operation that issues
  the call, so every theorem quantifies over whatever the driver may return.
* The file-system helpers of `ofFileUtils` are not part of this file and are taken
  as a parameter (`FileSystem`).
* `float` arguments of the uniform setters are passed to the driver untouched; they
  are `Nat` (`GLfloat`), standing for their bit patterns.
* The depth-bounded recursion of `parseForIncludes` is written with an explicit
  `fuel` argument; `none` means the fuel ran out, and it is proved that this
  never happens for the fuel the entry point supplies.
-/

namespace OfShader

abbrev Str := List Char
abbrev GLuint := Nat
abbrev GLenum := Nat
abbrev GLint := Int

/-! ## Include preprocessor -/

/-- One `std::getline(input, line)`: fails on exhausted input, otherwise extracts
the characters up to (not including) the next newline and consumes that newline. -/
def getline : Str → Option (Str × Str)
  | [] => none
  | c :: cs =>
    if c = '\n' then some ([], cs)
    else
      match getline cs with
      | none => some ([c], [])
      | some (l, rest) => some (c :: l, rest)

/-- The lines seen by `while( std::getline( input, line ) )`. -/
def getlines : Str → List Str
  | [] => []
  | c :: cs =>
    if c = '\n' then [] :: getlines cs
    else
      match getlines cs with
      | [] => [[c]]
      | l :: ls => (c :: l) :: ls

/-- Character class `\s` of `std::regex` (ECMAScript grammar, classic locale). -/
def isSpace (c : Char) : Bool :=
  c = ' ' || c = '\t' || c = '\n' || c = Char.ofNat 11 || c = Char.ofNat 12 || c = '\r'

/-- Character class `.` of `std::regex` (ECMAScript grammar): anything but a line terminator. -/
def isDot (c : Char) : Bool :=
  !(c = '\n' || c = '\r')

/-- Match a literal at the head of the input, returning what follows it. -/
def literal : Str → Str → Option Str
  | [], s => some s
  | _ :: _, [] => none
  | p :: ps, c :: cs => if p = c then literal ps cs else none

/-- Greedy `\s*`. The next pattern element never starts with a whitespace character,
so giving back whitespace cannot turn a failure into a success. -/
def spaces0 (s : Str) : Str :=
  s.dropWhile isSpace

/-- Greedy `\s+`. -/
def spaces1 : Str → Option Str
  | [] => none
  | c :: cs => if isSpace c then some (spaces0 cs) else none

/-- The opening delimiter, the class `["<]`. -/
def openDelim : Str → Option Str
  | [] => none
  | c :: cs => if c = '"' ∨ c = '<' then some cs else none

/-- The tail `(.*)[">].*` matched against the whole rest of the line, by backtracking:
the greedy group first tries to take the next character, and only when the rest cannot
be matched that way does it stop and try the closing delimiter here. Returns the
capture group. -/
def capturePath : Str → Option Str
  | [] => none
  | c :: cs =>
    match (if isDot c then capturePath cs else none) with
    | some cap => some (c :: cap)
    | none => if (c = '"' ∨ c = '>') ∧ cs.all isDot then some [] else none

/-- The call `std::regex_match( line, matches, re )` for
`re = ^\s*#\s*pragma\s+include\s+["<](.*)[">].*`: `some matches[1]` when the whole
line matches (then `matches.size()` is 2), `none` when it does not (`matches.size()` is 0). -/
def regexMatch (line : Str) : Option Str := do
  let s ← literal ['#'] (spaces0 line)
  let s ← literal "pragma".toList (spaces0 s)
  let s ← spaces1 s
  let s ← literal "include".toList s
  let s ← spaces1 s
  let s ← openDelim s
  capturePath s

/-- A `float` argument. No arithmetic is done on it; it stands for its bit pattern. -/
abbrev GLfloat := Nat

/-- The native value-set call a uniform setter issues, with the values it passes on (an
array argument is the list of the values it points to). -/
inductive UniformCall where
  | glUniform1i (v1 : Int)
  | glUniform2i (v1 v2 : Int)
  | glUniform3i (v1 v2 v3 : Int)
  | glUniform4i (v1 v2 v3 v4 : Int)
  | glUniform1f (v1 : GLfloat)
  | glUniform2f (v1 v2 : GLfloat)
  | glUniform3f (v1 v2 v3 : GLfloat)
  | glUniform4f (v1 v2 v3 v4 : GLfloat)
  | glUniform1iv (count : Int) (v : List Int)
  | glUniform2iv (count : Int) (v : List Int)
  | glUniform3iv (count : Int) (v : List Int)
  | glUniform4iv (count : Int) (v : List Int)
  | glUniform1fv (count : Int) (v : List GLfloat)
  | glUniform2fv (count : Int) (v : List GLfloat)
  | glUniform3fv (count : Int) (v : List GLfloat)
  | glUniform4fv (count : Int) (v : List GLfloat)
  | glUniformMatrix3fv (count : Int) (m : List GLfloat)
  | glUniformMatrix4fv (count : Int) (m : List GLfloat)
  deriving DecidableEq, Repr

/-- Observable side effects, in program order. -/
inductive Event where
  /-- A line written by `ofLogVerbose` / `ofLogWarning` / `ofLogError` / `ofLog`: the level,
  the fixed part of the message, and the path and the handles streamed into it. -/
  | log (level : String) (msg : String) (path : Str) (ids : List GLuint)
  /-- The call `ofBufferFromFile( include )`. -/
  | ofBufferFromFile (path : Str)
  | glCreateProgram
  | glCreateShader (type : GLenum)
  | glGetError
  | glShaderSource (shader : GLuint) (src : Str)
  | glCompileShader (shader : GLuint)
  | glGetShaderiv (shader : GLuint)
  | glGetShaderInfoLog (shader : GLuint)
  | glAttachShader (program shader : GLuint)
  | glLinkProgram (program : GLuint)
  | glGetProgramiv (program : GLuint)
  | glGetProgramInfoLog (program : GLuint)
  | glDetachShader (program shader : GLuint)
  | glDeleteShader (shader : GLuint)
  | glDeleteProgram (program : GLuint)
  | glGetUniformLocation (program : GLuint) (name : Str)
  /-- One of the `glUniform*` calls, at location `loc`. -/
  | glUniform (loc : GLint) (call : UniformCall)
  deriving DecidableEq, Repr

/-- The file-system helpers `parseForIncludes` relies on. -/
structure FileSystem where
  /-- The expression `ofFile(ofFilePath::join(sourceDirectoryPath, include)).getAbsolutePath()`. -/
  absolutePath : Str → Str → Str
  /-- The text of `ofBufferFromFile( include )`; a missing file reads as empty
  (`buffer.size()` is 0). -/
  bufferFromFile : Str → Str
  /-- The expression `ofFile(include).getEnclosingDirectory()`. -/
  enclosingDirectory : Str → Str

/-- What one activation of `parseForIncludes` produces: the returned text, the
`included` vector (passed by reference) as it stands on return, and the side effects. -/
structure ParseResult where
  output : Str
  included : List Str
  events : List Event
  deriving DecidableEq, Repr

def depthLimitMsg : String :=
  "glsl header inclusion depth limit reached, might be caused by cyclic header inclusion"

def alreadyIncludedMsg : String := "already included"

def couldNotOpenMsg : String := "Could not open glsl include file"

/-- The `while( std::getline( input, line ) )` loop of `parseForIncludes` over the
remaining lines. `recur source included dir` is the recursive call
`parseForIncludes( source, included, level + 1, dir )`. -/
def parseLines (fs : FileSystem) (recur : Str → List Str → Str → Option ParseResult)
    (sourceDirectoryPath : Str) : List Str → ParseResult → Option ParseResult
  | [], st => some st
  | line :: rest, st =>
    match regexMatch line with
    | none =>
      parseLines fs recur sourceDirectoryPath rest
        { st with output := st.output ++ line ++ ['\n'] }
    | some raw =>
      if raw ∈ st.included then
        parseLines fs recur sourceDirectoryPath rest
          { st with events := st.events ++ [Event.log "verbose" alreadyIncludedMsg raw []] }
      else
        let absolute := fs.absolutePath sourceDirectoryPath raw
        let included := st.included ++ [absolute]
        let events := st.events ++ [Event.ofBufferFromFile absolute]
        let text := fs.bufferFromFile absolute
        if text = [] then
          parseLines fs recur sourceDirectoryPath rest
            { output := st.output, included := included,
              events := events ++ [Event.log "error" couldNotOpenMsg absolute []] }
        else
          match recur text included (fs.enclosingDirectory absolute) with
          | none => none
          | some r =>
            parseLines fs recur sourceDirectoryPath rest
              { output := st.output ++ r.output ++ ['\n'], included := r.included,
                events := events ++ r.events }

/-- The recursive overload
`parseForIncludes( source, included, level, sourceDirectoryPath )`. -/
def parseForIncludesAux (fs : FileSystem) :
    Nat → Str → List Str → Nat → Str → Option ParseResult
  | 0, _, _, _, _ => none
  | fuel + 1, source, included, level, sourceDirectoryPath =>
    if level > 32 then
      some { output := [], included := included, events := [Event.log "error" depthLimitMsg [] []] }
    else
      parseLines fs
        (fun src inc dir => parseForIncludesAux fs fuel src inc (level + 1) dir)
        sourceDirectoryPath (getlines source)
        { output := [], included := included, events := [] }

/-- The entry point `parseForIncludes( source, sourceDirectoryPath )`: an empty
`included` vector and level 0. -/
def parseForIncludes (fs : FileSystem) (source sourceDirectoryPath : Str) : Option ParseResult :=
  parseForIncludesAux fs 34 source [] 0 sourceDirectoryPath

/-- The string `parseForIncludes( source, sourceDirectoryPath )` returns. -/
def parseForIncludesText (fs : FileSystem) (source sourceDirectoryPath : Str) : Str :=
  match parseForIncludes fs source sourceDirectoryPath with
  | some r => r.output
  | none => []

/-- The side effects of `parseForIncludes( source, sourceDirectoryPath )`. -/
def parseForIncludesEvents (fs : FileSystem) (source sourceDirectoryPath : Str) : List Event :=
  match parseForIncludes fs source sourceDirectoryPath with
  | some r => r.events
  | none => []

/-! ## Handle reference counting -/

/-- A `std::map<GLuint,int>`: `find` is application, `none` is "no entry". -/
abbrev IdTable := GLuint → Option Int

/-- The table with `ids[id] = v` stored (`some`) or `ids.erase(id)` done (`none`). -/
def IdTable.set (t : IdTable) (id : GLuint) (v : Option Int) : IdTable :=
  fun k => if k = id then v else t k

/-- The process-wide state: `getShaderIds()`, `getProgramIds()` and the side effects so far. -/
structure GLWorld where
  shaderIds : IdTable
  programIds : IdTable
  events : List Event

/-- Append side effects. -/
def GLWorld.emit (w : GLWorld) (es : List Event) : GLWorld :=
  { w with events := w.events ++ es }

/-- Empty tables, nothing observed yet. -/
def GLWorld.empty : GLWorld :=
  { shaderIds := fun _ => none, programIds := fun _ => none, events := [] }

def unknownShaderMsg : String :=
  "releaseShader(): something is wrong here, releasing unknown shader id from program"

def unknownProgramMsg : String :=
  "releaseProgram(): something is wrong here, releasing unknown program id"

/-- The function `retainShader(GLuint id)`. -/
def retainShader (id : GLuint) (w : GLWorld) : GLWorld :=
  if id = 0 then w
  else
    match w.shaderIds id with
    | some c => { w with shaderIds := w.shaderIds.set id (some (c + 1)) }
    | none => { w with shaderIds := w.shaderIds.set id (some 1) }

/-- The function `releaseShader(GLuint program, GLuint id)`. -/
def releaseShader (program id : GLuint) (w : GLWorld) : GLWorld :=
  match w.shaderIds id with
  | some c =>
    if c - 1 = 0 then
      { w with
        shaderIds := w.shaderIds.set id none
        events := w.events ++ [Event.glDetachShader program id, Event.glDeleteShader id] }
    else
      { w with shaderIds := w.shaderIds.set id (some (c - 1)) }
  | none =>
    w.emit [Event.log "warning" unknownShaderMsg [] [id, program],
      Event.glDetachShader program id, Event.glDeleteShader id]

/-- The function `retainProgram(GLuint id)`. -/
def retainProgram (id : GLuint) (w : GLWorld) : GLWorld :=
  if id = 0 then w
  else
    match w.programIds id with
    | some c => { w with programIds := w.programIds.set id (some (c + 1)) }
    | none => { w with programIds := w.programIds.set id (some 1) }

/-- The function `releaseProgram(GLuint id)`. -/
def releaseProgram (id : GLuint) (w : GLWorld) : GLWorld :=
  match w.programIds id with
  | some c =>
    if c - 1 = 0 then
      { w with
        programIds := w.programIds.set id none
        events := w.events ++ [Event.glDeleteProgram id] }
    else
      { w with programIds := w.programIds.set id (some (c - 1)) }
  | none =>
    w.emit [Event.log "warning" unknownProgramMsg [] [id], Event.glDeleteProgram id]

/-! ## The wrapper object -/

/-- An `unordered_map`, as the list of its entries in iteration order (keys distinct). -/
abbrev UMap (κ ν : Type) := List (κ × ν)

/-- The assignment `m[k] = v`. -/
def UMap.assign {κ ν : Type} [DecidableEq κ] : UMap κ ν → κ → ν → UMap κ ν
  | [], k, v => [(k, v)]
  | (k', v') :: m, k, v => if k' = k then (k, v) :: m else (k', v') :: UMap.assign m k v

/-- The data members of `ofShader`. -/
structure ofShader where
  program : GLuint
  bLoaded : Bool
  shaders : UMap GLenum GLuint
  shaderSource : UMap GLenum Str
  uniformLocations : UMap Str GLint
  deriving DecidableEq, Repr

/-- The default constructor `ofShader::ofShader()`. -/
def ofShader.new : ofShader :=
  { program := 0, bLoaded := false, shaders := [], shaderSource := [], uniformLocations := [] }

/-- The loop of `unload()` over `shaders`. -/
def unloadShaders (program : GLuint) : UMap GLenum GLuint → GLWorld → GLWorld
  | [], w => w
  | (type, shader) :: rest, w =>
    if shader ≠ 0 then
      unloadShaders program rest
        (releaseShader program shader
          (w.emit [Event.log "verbose" "unload(): detaching and deleting shader from program" []
            [type, program]]))
    else
      unloadShaders program rest w

/-- The method `ofShader::unload()`. -/
def unload (s : ofShader) (w : GLWorld) : ofShader × GLWorld :=
  if s.bLoaded then
    let w1 := unloadShaders s.program s.shaders w
    if s.program ≠ 0 then
      ({ s with program := 0, shaders := [], uniformLocations := [], bLoaded := false },
        releaseProgram s.program w1)
    else
      ({ s with shaders := [], uniformLocations := [], bLoaded := false }, w1)
  else
    ({ s with bLoaded := false }, w)

/-- The loop over `shaders` in the copy constructor and in `operator=`. -/
def retainShaders : UMap GLenum GLuint → GLWorld → GLWorld
  | [], w => w
  | (_, shader) :: rest, w => retainShaders rest (retainShader shader w)

/-- The copy constructor `ofShader::ofShader(const ofShader & mom)`. -/
def copyConstruct (mom : ofShader) (w : GLWorld) : ofShader × GLWorld :=
  let s : ofShader :=
    { program := mom.program, bLoaded := mom.bLoaded, shaders := mom.shaders,
      shaderSource := [], uniformLocations := [] }
  if mom.bLoaded then
    (s, retainShaders s.shaders (retainProgram s.program w))
  else
    (s, w)

/-- The assignment `ofShader::operator=(const ofShader & mom)` for `this != &mom`
(self-assignment returns at once and is handled where objects have addresses). -/
def assign (self mom : ofShader) (w : GLWorld) : ofShader × GLWorld :=
  let (self1, w1) := if self.bLoaded then unload self w else (self, w)
  let s : ofShader :=
    { self1 with program := mom.program, bLoaded := mom.bLoaded, shaders := mom.shaders }
  if mom.bLoaded then
    (s, retainShaders s.shaders (retainProgram s.program w1))
  else
    (s, w1)

/-- The method `ofShader::checkAndCreateProgram()`. `capability` is the value of
`GL_ARB_shader_objects` (of `ofIsGLProgrammableRenderer()` on OpenGL ES) and `created`
is what `glCreateProgram()` returns if it is called. -/
def checkAndCreateProgram (capability : Bool) (created : GLuint) (s : ofShader) (w : GLWorld) :
    ofShader × GLWorld :=
  if capability then
    if s.program = 0 then
      ({ s with program := created },
        retainProgram created
          (w.emit [Event.log "verbose" "checkAndCreateProgram(): creating GLSL program" [] [],
            Event.glCreateProgram]))
    else
      (s, w)
  else
    (s, w.emit [Event.log "error" "sorry, it looks like you can not run ARB_shader_objects" [] [],
      Event.log "error" "please check the capabilites of your graphics card" [] []])

/-- The method `ofShader::checkShaderInfoLog(shader, type, logLevel)`; `infoLength` is what
the driver reports for `GL_INFO_LOG_LENGTH`. It only logs. -/
def checkShaderInfoLog (infoLength : GLint) (shader : GLuint) (type : GLenum) (logLevel : String)
    (s : ofShader) (w : GLWorld) : GLWorld :=
  let w1 := w.emit [Event.glGetShaderiv shader]
  if infoLength > 1 then
    let w2 := w1.emit [Event.glGetShaderInfoLog shader,
      Event.log logLevel "ofShader: shader reports" [] [type]]
    if (s.shaderSource.lookup type).isSome then
      w2.emit [Event.log logLevel "ofShader: offending line or shader source" [] [type]]
    else w2
  else w1

/-- What the driver answers during one `setupShaderFromSource` call. -/
structure SetupNative where
  capability : Bool
  createdProgram : GLuint
  clearErrors : GLuint
  createdShader : GLuint
  /-- The variable `status` after `glGetShaderiv(shader, GL_COMPILE_STATUS, &status)`. -/
  status : GLint
  err : GLuint
  infoLength : GLint
  deriving DecidableEq, Repr

def GL_NO_ERROR : GLuint := 0
def GL_TRUE : GLint := 1
def GL_FALSE : GLint := 0

/-- The method `ofShader::setupShaderFromSource(type, source, sourceDirectoryPath)`. -/
def setupShaderFromSource (fs : FileSystem) (nat : SetupNative) (type : GLenum)
    (source sourceDirectoryPath : Str) (s0 : ofShader) (w0 : GLWorld) :
    Bool × ofShader × GLWorld :=
  let (s1, w1) := unload s0 w0
  let (s2, w2) := checkAndCreateProgram nat.capability nat.createdProgram s1 w1
  let w3 := w2.emit [Event.glGetError]
  let w4 :=
    if nat.clearErrors ≠ GL_NO_ERROR then
      w3.emit [Event.log "verbose"
        "setupShaderFromSource(): OpenGL error after checkAndCreateProgram()" [] [nat.clearErrors]]
    else w3
  let shader := nat.createdShader
  let w5 := w4.emit [Event.glCreateShader type]
  if shader = 0 then
    (false, s2, w5.emit [Event.log "error" "setupShaderFromSource(): failed creating shader" []
      [type]])
  else
    let src := parseForIncludesText fs source sourceDirectoryPath
    let w6 := w5.emit (parseForIncludesEvents fs source sourceDirectoryPath)
    let s3 := { s2 with shaderSource := s2.shaderSource.assign type src }
    let w7 := w6.emit [Event.glShaderSource shader src, Event.glCompileShader shader,
      Event.glGetShaderiv shader, Event.glGetError]
    if nat.err ≠ GL_NO_ERROR then
      (false, s3, w7.emit [Event.log "error"
        "setupShaderFromSource(): OpenGL generated error trying to get the compile status" []
        [nat.err, type]])
    else if nat.status = GL_TRUE then
      let w8 := checkShaderInfoLog nat.infoLength shader type "warning" s3
        (w7.emit [Event.log "verbose" "setupShaderFromSource(): shader compiled" [] [type]])
      (true, { s3 with shaders := s3.shaders.assign type shader }, retainShader shader w8)
    else if nat.status = GL_FALSE then
      let w8 := checkShaderInfoLog nat.infoLength shader type "error" s3
        (w7.emit [Event.log "error" "setupShaderFromSource(): shader failed to compile" []
          [type]])
      (false, s3, w8)
    else
      (true, { s3 with shaders := s3.shaders.assign type shader }, retainShader shader w7)

/-- What the driver answers during one `linkProgram` call. -/
structure LinkNative where
  capability : Bool
  createdProgram : GLuint
  /-- The variable `status` after `glGetProgramiv(program, GL_LINK_STATUS, &status)`. -/
  status : GLint
  err : GLuint
  infoLength : GLint
  deriving DecidableEq, Repr

/-- The method `ofShader::checkProgramInfoLog(program)`. It only logs. -/
def checkProgramInfoLog (infoLength : GLint) (program : GLuint) (w : GLWorld) : GLWorld :=
  let w1 := w.emit [Event.glGetProgramiv program]
  if infoLength > 1 then
    w1.emit [Event.glGetProgramInfoLog program,
      Event.log "error" "ofShader: program reports" [] []]
  else w1

/-- The method `ofShader::checkProgramLinkStatus(program)`. -/
def checkProgramLinkStatus (nat : LinkNative) (program : GLuint) (w : GLWorld) : Bool × GLWorld :=
  let w1 := w.emit [Event.glGetProgramiv program, Event.glGetError]
  if nat.err ≠ GL_NO_ERROR then
    (false, w1.emit [Event.log "error"
      "checkProgramLinkStatus(): OpenGL generated error trying to get the program link status" []
      [nat.err]])
  else if nat.status = GL_TRUE then
    (true, w1.emit [Event.log "verbose" "checkProgramLinkStatus(): program linked" [] [program]])
  else if nat.status = GL_FALSE then
    (false, checkProgramInfoLog nat.infoLength program
      (w1.emit [Event.log "error" "checkProgramLinkStatus(): program failed to link" [] []]))
  else
    (true, w1)

/-- The attach loop of `linkProgram()`. -/
def attachShaders (program : GLuint) : UMap GLenum GLuint → GLWorld → GLWorld
  | [], w => w
  | (type, shader) :: rest, w =>
    if shader ≠ 0 then
      attachShaders program rest
        (w.emit [Event.log "verbose" "linkProgram(): attaching shader to program" []
          [type, program], Event.glAttachShader program shader])
    else
      attachShaders program rest w

def noShadersMsg : String :=
  "linkProgram(): trying to link GLSL program, but no shaders created yet"

/-- The method `ofShader::linkProgram()`. -/
def linkProgram (nat : LinkNative) (s0 : ofShader) (w0 : GLWorld) : Bool × ofShader × GLWorld :=
  if s0.shaders.isEmpty then
    (s0.bLoaded, s0, w0.emit [Event.log "error" noShadersMsg [] []])
  else
    let (s1, w1) := checkAndCreateProgram nat.capability nat.createdProgram s0 w0
    let w2 := attachShaders s1.program s1.shaders w1
    let w3 := w2.emit [Event.glLinkProgram s1.program]
    let w4 := (checkProgramLinkStatus nat s1.program w3).2
    (true, { s1 with bLoaded := true }, w4)

/-- The method `ofShader::getUniformLocation(name)`; `queried` is what
`glGetUniformLocation(program, name)` returns if it is called. The cache
`uniformLocations` is a mutable member, so the wrapper is returned as well. -/
def getUniformLocation (queried : GLint) (name : Str) (s : ofShader) (w : GLWorld) :
    GLint × ofShader × GLWorld :=
  if !s.bLoaded then (-1, s, w)
  else
    match s.uniformLocations.lookup name with
    | none =>
      (queried, { s with uniformLocations := s.uniformLocations.assign name queried },
        w.emit [Event.glGetUniformLocation s.program name])
    | some loc => (loc, s, w)

/-- The common body of the value setters `setUniform1i` .. `setUniform4i`,
`setUniform1f` .. `setUniform4f`, `setUniform1iv` .. `setUniform4iv`, `setUniform1fv` ..
`setUniform4fv`, `setUniformMatrix3f` and `setUniformMatrix4f`: they differ only in the
native call `call` issued at the resolved location. -/
def setUniform (call : UniformCall) (queried : GLint) (name : Str) (s : ofShader)
    (w : GLWorld) : ofShader × GLWorld :=
  if s.bLoaded then
    let r := getUniformLocation queried name s w
    if r.1 ≠ -1 then (r.2.1, r.2.2.emit [Event.glUniform r.1 call]) else (r.2.1, r.2.2)
  else (s, w)

/-- The method `ofShader::setUniform1i(name, v1)`. -/
def setUniform1i (queried : GLint) (name : Str) (v1 : Int) (s : ofShader) (w : GLWorld) :
    ofShader × GLWorld :=
  setUniform (UniformCall.glUniform1i v1) queried name s w

/-- The method `ofShader::setUniform2i(name, v1, v2)`. -/
def setUniform2i (queried : GLint) (name : Str) (v1 v2 : Int) (s : ofShader) (w : GLWorld) :
    ofShader × GLWorld :=
  setUniform (UniformCall.glUniform2i v1 v2) queried name s w

/-- The method `ofShader::setUniform3i(name, v1, v2, v3)`. -/
def setUniform3i (queried : GLint) (name : Str) (v1 v2 v3 : Int) (s : ofShader) (w : GLWorld) :
    ofShader × GLWorld :=
  setUniform (UniformCall.glUniform3i v1 v2 v3) queried name s w

/-- The method `ofShader::setUniform4i(name, v1, v2, v3, v4)`. -/
def setUniform4i (queried : GLint) (name : Str) (v1 v2 v3 v4 : Int) (s : ofShader) (w : GLWorld) :
    ofShader × GLWorld :=
  setUniform (UniformCall.glUniform4i v1 v2 v3 v4) queried name s w

/-- The method `ofShader::setUniform1f(name, v1)`. -/
def setUniform1f (queried : GLint) (name : Str) (v1 : GLfloat) (s : ofShader) (w : GLWorld) :
    ofShader × GLWorld :=
  setUniform (UniformCall.glUniform1f v1) queried name s w

/-- The method `ofShader::setUniform2f(name, v1, v2)`. -/
def setUniform2f (queried : GLint) (name : Str) (v1 v2 : GLfloat) (s : ofShader) (w : GLWorld) :
    ofShader × GLWorld :=
  setUniform (UniformCall.glUniform2f v1 v2) queried name s w

/-- The method `ofShader::setUniform3f(name, v1, v2, v3)`. -/
def setUniform3f (queried : GLint) (name : Str) (v1 v2 v3 : GLfloat) (s : ofShader) (w : GLWorld) :
    ofShader × GLWorld :=
  setUniform (UniformCall.glUniform3f v1 v2 v3) queried name s w

/-- The method `ofShader::setUniform4f(name, v1, v2, v3, v4)`. -/
def setUniform4f (queried : GLint) (name : Str) (v1 v2 v3 v4 : GLfloat) (s : ofShader) (w : GLWorld) :
    ofShader × GLWorld :=
  setUniform (UniformCall.glUniform4f v1 v2 v3 v4) queried name s w

/-- The method `ofShader::setUniform1iv(name, v, count)`. -/
def setUniform1iv (queried : GLint) (name : Str) (v : List Int) (count : Int) (s : ofShader) (w : GLWorld) :
    ofShader × GLWorld :=
  setUniform (UniformCall.glUniform1iv count v) queried name s w

/-- The method `ofShader::setUniform2iv(name, v, count)`. -/
def setUniform2iv (queried : GLint) (name : Str) (v : List Int) (count : Int) (s : ofShader) (w : GLWorld) :
    ofShader × GLWorld :=
  setUniform (UniformCall.glUniform2iv count v) queried name s w

/-- The method `ofShader::setUniform3iv(name, v, count)`. -/
def setUniform3iv (queried : GLint) (name : Str) (v : List Int) (count : Int) (s : ofShader) (w : GLWorld) :
    ofShader × GLWorld :=
  setUniform (UniformCall.glUniform3iv count v) queried name s w

/-- The method `ofShader::setUniform4iv(name, v, count)`. -/
def setUniform4iv (queried : GLint) (name : Str) (v : List Int) (count : Int) (s : ofShader) (w : GLWorld) :
    ofShader × GLWorld :=
  setUniform (UniformCall.glUniform4iv count v) queried name s w

/-- The method `ofShader::setUniform1fv(name, v, count)`. -/
def setUniform1fv (queried : GLint) (name : Str) (v : List GLfloat) (count : Int) (s : ofShader) (w : GLWorld) :
    ofShader × GLWorld :=
  setUniform (UniformCall.glUniform1fv count v) queried name s w

/-- The method `ofShader::setUniform2fv(name, v, count)`. -/
def setUniform2fv (queried : GLint) (name : Str) (v : List GLfloat) (count : Int) (s : ofShader) (w : GLWorld) :
    ofShader × GLWorld :=
  setUniform (UniformCall.glUniform2fv count v) queried name s w

/-- The method `ofShader::setUniform3fv(name, v, count)`. -/
def setUniform3fv (queried : GLint) (name : Str) (v : List GLfloat) (count : Int) (s : ofShader) (w : GLWorld) :
    ofShader × GLWorld :=
  setUniform (UniformCall.glUniform3fv count v) queried name s w

/-- The method `ofShader::setUniform4fv(name, v, count)`. -/
def setUniform4fv (queried : GLint) (name : Str) (v : List GLfloat) (count : Int) (s : ofShader) (w : GLWorld) :
    ofShader × GLWorld :=
  setUniform (UniformCall.glUniform4fv count v) queried name s w

/-- The method `ofShader::setUniformMatrix3f(name, m, count)`. -/
def setUniformMatrix3f (queried : GLint) (name : Str) (m : List GLfloat) (count : Int) (s : ofShader) (w : GLWorld) :
    ofShader × GLWorld :=
  setUniform (UniformCall.glUniformMatrix3fv count m) queried name s w

/-- The method `ofShader::setUniformMatrix4f(name, m, count)`. -/
def setUniformMatrix4f (queried : GLint) (name : Str) (m : List GLfloat) (count : Int) (s : ofShader) (w : GLWorld) :
    ofShader × GLWorld :=
  setUniform (UniformCall.glUniformMatrix4fv count m) queried name s w

/-! ## Several wrapper objects sharing the tables -/

/-- The live `ofShader` objects, addressed by their position, and the shared state. -/
structure System where
  objs : List ofShader
  world : GLWorld

/-- One default-constructed wrapper, empty tables. -/
def System.init : System :=
  { objs := [ofShader.new], world := GLWorld.empty }

/-- The public operations on the objects of a `System`, with the driver's answers. -/
inductive Op where
  | construct
  | setupShaderFromSource (i : Nat) (nat : SetupNative) (type : GLenum)
      (source sourceDirectoryPath : Str)
  | linkProgram (i : Nat) (nat : LinkNative)
  | unload (i : Nat)
  | copyConstruct (mom : Nat)
  | assign (self mom : Nat)

/-- Run one operation. An operation naming an object that does not exist does nothing. -/
def System.step (fs : FileSystem) (sys : System) : Op → System
  | Op.construct => { sys with objs := sys.objs ++ [ofShader.new] }
  | Op.setupShaderFromSource i nat type source dir =>
    match sys.objs.get? i with
    | none => sys
    | some s =>
      let r := setupShaderFromSource fs nat type source dir s sys.world
      { objs := sys.objs.set i r.2.1, world := r.2.2 }
  | Op.linkProgram i nat =>
    match sys.objs.get? i with
    | none => sys
    | some s =>
      let r := linkProgram nat s sys.world
      { objs := sys.objs.set i r.2.1, world := r.2.2 }
  | Op.unload i =>
    match sys.objs.get? i with
    | none => sys
    | some s =>
      let r := unload s sys.world
      { objs := sys.objs.set i r.1, world := r.2 }
  | Op.copyConstruct mom =>
    match sys.objs.get? mom with
    | none => sys
    | some m =>
      let r := copyConstruct m sys.world
      { objs := sys.objs ++ [r.1], world := r.2 }
  | Op.assign self mom =>
    if self = mom then sys
    else
      match sys.objs.get? self, sys.objs.get? mom with
      | some s, some m =>
        let r := assign s m sys.world
        { objs := sys.objs.set self r.1, world := r.2 }
      | _, _ => sys

/-- Run a sequence of operations from the initial system. -/
def System.run (fs : FileSystem) (ops : List Op) : System :=
  ops.foldl (System.step fs) System.init

/-! ## Scenario definitions used by the statements below -/

/-- What the loop writes for lines that are not directives: each line, then `endl`. -/
def emitLines : List Str → Str
  | [] => []
  | l :: ls => l ++ ['\n'] ++ emitLines ls

/-- The directory part of a path, up to and including the last `/`. -/
def dirName (path : Str) : Str :=
  (path.reverse.dropWhile (fun c => c ≠ '/')).reverse

/-- A concrete file system for worked examples: a path is resolved by appending it to
the directory of the including file, and `files` lists the files that exist. -/
def exampleFS (files : List (Str × Str)) : FileSystem where
  absolutePath dir p := dir ++ p
  bufferFromFile path := (files.lookup path).getD []
  enclosingDirectory path := dirName path

/-- The body of `parseForIncludes` at level 0 over the given lines, starting from the
given `included` vector: the expansion of a group of top-level lines. -/
def expandTop (fs : FileSystem) (dir : Str) (lines : List Str) (included : List Str) :
    Option ParseResult :=
  parseLines fs (fun src inc d => parseForIncludesAux fs 33 src inc 1 d) dir lines
    { output := [], included := included, events := [] }

/-- The diamond: the top-level source includes `b.glsl` and `c.glsl`, and each of
them includes `d.glsl`, all by relative path and all in `/s/`. -/
def diamondFS : FileSystem :=
  exampleFS
    [("/s/b.glsl".toList, "B\n#pragma include \"d.glsl\"\n".toList),
     ("/s/c.glsl".toList, "C\n#pragma include \"d.glsl\"\n".toList),
     ("/s/d.glsl".toList, "DDD\n".toList)]

def diamondTop : Str :=
  "#pragma include \"b.glsl\"\n#pragma include \"c.glsl\"\n".toList

/-- A file that includes itself. -/
def selfFS : FileSystem :=
  exampleFS [("/s/a.glsl".toList, "A\n#pragma include \"a.glsl\"\n".toList)]

/-- One file, `/s/a.glsl`, and nothing else. -/
def oneFileFS : FileSystem :=
  exampleFS [("/s/a.glsl".toList, "A\n".toList)]

/-- The driver supports program objects and hands out a non-zero program name in this
operation, where the operation is `linkProgram`; no condition on the other operations. -/
def Op.linkOk : Op → Bool
  | Op.linkProgram _ nat => nat.capability && decide (nat.createdProgram ≠ 0)
  | _ => true

/-- A driver that compiles the stage but hands out no program object. -/
def noProgramSetup : SetupNative :=
  { capability := true, createdProgram := 0, clearErrors := 0, createdShader := 5,
    status := GL_TRUE, err := 0, infoLength := 0 }

def noProgramLink : LinkNative :=
  { capability := true, createdProgram := 0, status := GL_FALSE, err := 0, infoLength := 0 }

/-- A driver that works: program 7, shader 5. -/
def goodSetup : SetupNative :=
  { capability := true, createdProgram := 7, clearErrors := 0, createdShader := 5,
    status := GL_TRUE, err := 0, infoLength := 0 }

def goodLink : LinkNative :=
  { capability := true, createdProgram := 7, status := GL_TRUE, err := 0, infoLength := 0 }

/-- In every object the loaded flag implies a non-zero program handle. -/
def LoadedHasProgram (sys : System) : Prop :=
  ∀ s ∈ sys.objs, s.bLoaded = true → s.program ≠ 0

/-- The native delete calls. -/
def isDelete : Event → Bool
  | Event.glDeleteShader _ => true
  | Event.glDeleteProgram _ => true
  | _ => false

/-- A loaded wrapper with program 7 and two stages, and the tables as they are when it
is the only owner. -/
def ownerShader : ofShader :=
  { program := 7, bLoaded := true, shaders := [(35633, 5), (35632, 6)],
    shaderSource := [(35633, "void main();\n".toList)], uniformLocations := [] }

def ownerWorld : GLWorld :=
  retainShader 6 (retainShader 5 (retainProgram 7 GLWorld.empty))

/-- The lines the pattern matches as it is written, split at the last closing delimiter:
optional whitespace, `#`, optional whitespace, `pragma`, whitespace, `include`,
whitespace, an opening `"` or `<`, the text the group captures, a `"` or `>`, and a rest
that holds no further `"` or `>`; captured text and rest hold no line terminator. -/
def IsIncludeLine (line path : Str) : Prop :=
  ∃ ws1 ws2 ws3 ws4 trail : Str, ∃ o c : Char,
    (∀ x ∈ ws1, isSpace x = true) ∧ (∀ x ∈ ws2, isSpace x = true) ∧
    (∀ x ∈ ws3, isSpace x = true) ∧ (∀ x ∈ ws4, isSpace x = true) ∧
    ws3 ≠ [] ∧ ws4 ≠ [] ∧ (o = '"' ∨ o = '<') ∧ (c = '"' ∨ c = '>') ∧
    (∀ x ∈ path, isDot x = true) ∧
    (∀ x ∈ trail, isDot x = true ∧ x ≠ '"' ∧ x ≠ '>') ∧
    line = ws1 ++ '#' :: (ws2 ++ ("pragma".toList ++ (ws3 ++ ("include".toList ++
      (ws4 ++ o :: (path ++ c :: trail))))))

/-- A call of one of the four counting functions. -/
inductive CountOp where
  | retainShader (id : GLuint)
  | releaseShader (program id : GLuint)
  | retainProgram (id : GLuint)
  | releaseProgram (id : GLuint)
  deriving DecidableEq, Repr

/-- Run one counting call. -/
def CountOp.apply : CountOp → GLWorld → GLWorld
  | CountOp.retainShader id, w => OfShader.retainShader id w
  | CountOp.releaseShader program id, w => OfShader.releaseShader program id w
  | CountOp.retainProgram id, w => OfShader.retainProgram id w
  | CountOp.releaseProgram id, w => OfShader.releaseProgram id w

/-- Run a sequence of counting calls from empty tables. -/
def runCounts (ops : List CountOp) : GLWorld :=
  ops.foldl (fun w op => op.apply w) GLWorld.empty

/-- Every entry of the table has a non-zero key and a count between 1 and `bound`. -/
def TableOk (bound : Nat) (t : IdTable) : Prop :=
  ∀ k c, t k = some c → k ≠ 0 ∧ 0 < c ∧ c ≤ (bound : Int)

/-- The native attach and link calls. -/
def isAttachOrLink : Event → Bool
  | Event.glAttachShader _ _ => true
  | Event.glLinkProgram _ => true
  | _ => false

/-- One attach call per registered non-zero stage handle, in the order of the stage map. -/
def attachCalls (program : GLuint) (shaders : UMap GLenum GLuint) : List Event :=
  (shaders.filter (fun e => decide (e.2 ≠ 0))).map (fun e => Event.glAttachShader program e.2)

/-- A driver whose link fails. -/
def failingLink : LinkNative :=
  { capability := true, createdProgram := 9, status := GL_FALSE, err := 0, infoLength := 40 }

/-- The program handle `linkProgram` works on: the one `checkAndCreateProgram` leaves in
place, which is a newly created one when the wrapper had none and the driver supports
program objects. -/
def linkedProgram (nat : LinkNative) (s : ofShader) : GLuint :=
  if nat.capability = true ∧ s.program = 0 then nat.createdProgram else s.program

/-- A wrapper with a vertex and a fragment stage set up, and program 7, not linked yet. -/
def twoStageShader : ofShader :=
  { program := 7, bLoaded := false, shaders := [(35633, 5), (35632, 6)],
    shaderSource := [(35633, "void main();\n".toList), (35632, "void main();\n".toList)],
    uniformLocations := [] }

/-- The table `t'` has no entry that `t` lacks and no count above the one in `t`. -/
def NotRaised (t t' : IdTable) : Prop :=
  ∀ k, t' k = none ∨ ∃ c c', t k = some c ∧ t' k = some c' ∧ c' ≤ c

/-- A driver that creates the stage but reports a failed compile. -/
def failedCompile : SetupNative :=
  { capability := true, createdProgram := 7, clearErrors := 0, createdShader := 8,
    status := GL_FALSE, err := 0, infoLength := 30 }

/-- In every object the loaded flag implies a non-empty stage map. -/
def LoadedHasStages (sys : System) : Prop :=
  ∀ s ∈ sys.objs, s.bLoaded = true → s.shaders ≠ []

/-- One `releaseShader` call, preceded by its verbose log line, for each registered
non-zero stage handle, in the order of the stage map. -/
def releaseStages (program : GLuint) (shaders : UMap GLenum GLuint) (w : GLWorld) : GLWorld :=
  (shaders.filter (fun e => decide (e.2 ≠ 0))).foldl
    (fun w e =>
      releaseShader program e.2
        (w.emit [Event.log "verbose" "unload(): detaching and deleting shader from program" []
          [e.1, program]]))
    w

/-- A call that goes through the location cache: a lookup, or one of the value setters,
with the driver's answer to the location query if one is made. -/
inductive UniformOp where
  | get (name : Str) (queried : GLint)
  | set (call : UniformCall) (name : Str) (queried : GLint)
  deriving DecidableEq, Repr

/-- Run one such call. -/
def UniformOp.apply : UniformOp → ofShader × GLWorld → ofShader × GLWorld
  | UniformOp.get name queried, sw => (getUniformLocation queried name sw.1 sw.2).2
  | UniformOp.set call name queried, sw => setUniform call queried name sw.1 sw.2

/-- Run a sequence of such calls on one wrapper. -/
def runUniformOps (ops : List UniformOp) (s : ofShader) (w : GLWorld) : ofShader × GLWorld :=
  ops.foldl (fun sw op => op.apply sw) (s, w)

/-- A linked wrapper with an empty location cache. -/
def linkedShader : ofShader :=
  { program := 7, bLoaded := true, shaders := [(35633, 5)],
    shaderSource := [(35633, "uniform float t;\n".toList)], uniformLocations := [] }

/-! # Theorems -/

/-! ## Lines -/

theorem getlines_eq_nil_iff (s : Str) : getlines s = [] ↔ s = [] := by
  cases s with
  | nil => simp [getlines]
  | cons c cs =>
    simp only [getlines]
    split
    · simp
    · split <;> simp

/-- The model `getlines` is the iteration of `getline`. -/
theorem getlines_unfold (s : Str) :
    getlines s = match getline s with
      | none => []
      | some (l, rest) => l :: getlines rest := by
  induction s with
  | nil => simp [getlines, getline]
  | cons c cs ih =>
    simp only [getlines, getline]
    by_cases hc : c = '\n'
    · simp [hc]
    · simp only [hc, if_false]
      rw [ih]
      cases hg : getline cs with
      | none => simp [getlines]
      | some lr => obtain ⟨l, rest⟩ := lr; simp

theorem emitLines_append (xs ys : List Str) :
    emitLines (xs ++ ys) = emitLines xs ++ emitLines ys := by
  induction xs with
  | nil => simp [emitLines]
  | cons x xs ih => simp [emitLines, ih]

/-- Writing every line back with a terminator restores the source, up to one
terminator added when the last line had none. -/
theorem emitLines_getlines (s : Str) :
    emitLines (getlines s) =
      if s = [] ∨ s.getLast? = some '\n' then s else s ++ ['\n'] := by
  induction s with
  | nil => simp [getlines, emitLines]
  | cons c cs ih =>
    by_cases hc : c = '\n'
    · subst hc
      simp only [getlines, if_true, emitLines, List.nil_append, List.cons_append]
      rw [ih]
      cases cs with
      | nil => simp
      | cons d ds =>
        by_cases hl : (d :: ds).getLast? = some '\n' <;>
          simp [List.getLast?_cons_cons, hl]
    · cases cs with
      | nil => simp [getlines, emitLines, hc, List.getLast?]
      | cons d ds =>
        have hne : getlines (d :: ds) ≠ [] := by
          rw [Ne, getlines_eq_nil_iff]; simp
        simp only [getlines, hc, if_false] at ih ⊢
        cases hg : getlines (d :: ds) with
        | nil => exact absurd hg hne
        | cons l ls =>
          have hg2 : (if d = '\n' then [] :: getlines ds
              else match getlines ds with
                | [] => [[d]]
                | l :: ls => (d :: l) :: ls) = l :: ls := by
            simpa [getlines] using hg
          rw [hg2] at ih ⊢
          simp only [emitLines, List.cons_append] at ih ⊢
          rw [ih]
          by_cases hl : (d :: ds).getLast? = some '\n' <;>
            simp [List.getLast?_cons_cons, hl]

/-! ## The line loop -/

theorem parseLines_plain (fs : FileSystem) (recur : Str → List Str → Str → Option ParseResult)
    (dir : Str) (xs : List Str) (h : ∀ l ∈ xs, regexMatch l = none) (st : ParseResult) :
    parseLines fs recur dir xs st = some { st with output := st.output ++ emitLines xs } := by
  induction xs generalizing st with
  | nil => simp [parseLines, emitLines]
  | cons x xs ih =>
    have hx : regexMatch x = none := h x (List.mem_cons_self _ _)
    have hxs : ∀ l ∈ xs, regexMatch l = none := fun l hl => h l (List.mem_cons_of_mem _ hl)
    simp only [parseLines, hx]
    rw [ih hxs]
    simp [emitLines]

theorem parseLines_total (fs : FileSystem) (recur : Str → List Str → Str → Option ParseResult)
    (dir : Str) (hrec : ∀ a b c, ∃ r, recur a b c = some r) (xs : List Str) (st : ParseResult) :
    ∃ r, parseLines fs recur dir xs st = some r := by
  induction xs generalizing st with
  | nil => exact ⟨st, rfl⟩
  | cons x xs ih =>
    simp only [parseLines]
    split
    · exact ih _
    · split
      · exact ih _
      · split
        · exact ih _
        · obtain ⟨r, hr⟩ := hrec (fs.bufferFromFile (fs.absolutePath dir ‹Str›))
            (st.included ++ [fs.absolutePath dir ‹Str›])
            (fs.enclosingDirectory (fs.absolutePath dir ‹Str›))
          rw [hr]
          exact ih _

theorem parseForIncludesAux_total (fs : FileSystem) (fuel : Nat) :
    ∀ (level : Nat), 33 - level < fuel → ∀ (source : Str) (included : List Str) (dir : Str),
      ∃ r, parseForIncludesAux fs fuel source included level dir = some r := by
  induction fuel with
  | zero => intro level h; omega
  | succ fuel ih =>
    intro level h source included dir
    simp only [parseForIncludesAux]
    split
    · exact ⟨_, rfl⟩
    · apply parseLines_total
      intro a b c
      exact ih (level + 1) (by omega) a b c

theorem parseForIncludesAux_fuel (fs : FileSystem) (fuel1 : Nat) :
    ∀ (fuel2 level : Nat), 33 - level < fuel1 → 33 - level < fuel2 →
      ∀ (source : Str) (included : List Str) (dir : Str),
        parseForIncludesAux fs fuel1 source included level dir =
          parseForIncludesAux fs fuel2 source included level dir := by
  induction fuel1 with
  | zero => intro fuel2 level h; omega
  | succ fuel1 ih =>
    intro fuel2 level h1 h2 source included dir
    cases fuel2 with
    | zero => omega
    | succ fuel2 =>
      simp only [parseForIncludesAux]
      split
      · rfl
      · have hfun : (fun src inc d => parseForIncludesAux fs fuel1 src inc (level + 1) d) =
            (fun src inc d => parseForIncludesAux fs fuel2 src inc (level + 1) d) := by
          funext src inc d
          exact ih fuel2 (level + 1) (by omega) (by omega) src inc d
        rw [hfun]

theorem parseForIncludes_eq_expandTop (fs : FileSystem) (source dir : Str) :
    parseForIncludes fs source dir = expandTop fs dir (getlines source) [] := by
  simp [parseForIncludes, parseForIncludesAux, expandTop]

/-! ## Claims about the include preprocessor -/

/-- C1 (the code at the diamond): with `b.glsl` and `c.glsl` both including `d.glsl` by
relative path, the text of `d.glsl` is written twice. The directive in `c.glsl` is not
suppressed, because the captured text `d.glsl` is looked up in `included` before it is
made absolute, while `included` holds the absolute `/s/d.glsl`; that path ends up in
`included` twice. -/
theorem diamond_expands_shared_file_twice :
    parseForIncludes diamondFS diamondTop "/s/".toList =
      some
        { output := "B\nDDD\n\n\nC\nDDD\n\n\n".toList
          included :=
            ["/s/b.glsl".toList, "/s/d.glsl".toList, "/s/c.glsl".toList, "/s/d.glsl".toList]
          events :=
            [Event.ofBufferFromFile "/s/b.glsl".toList, Event.ofBufferFromFile "/s/d.glsl".toList,
              Event.ofBufferFromFile "/s/c.glsl".toList,
              Event.ofBufferFromFile "/s/d.glsl".toList] } := by
  decide

/-- C2: when no line of the source matches the include pattern, `parseForIncludes`
returns the lines of the source, each followed by one newline, reads no file, logs
nothing and leaves `included` empty, whatever the file system and the directory; that
text is the source itself when the source is empty or ends in a newline, and the source
plus one newline otherwise. -/
theorem parseForIncludes_identity_without_directives (fs : FileSystem) (source dir : Str)
    (h : ∀ line ∈ getlines source, regexMatch line = none) :
    parseForIncludes fs source dir =
        some { output := emitLines (getlines source), included := [], events := [] } ∧
      emitLines (getlines source) =
        (if source = [] ∨ source.getLast? = some '\n' then source else source ++ ['\n']) := by
  refine ⟨?_, emitLines_getlines source⟩
  rw [parseForIncludes_eq_expandTop, expandTop, parseLines_plain fs _ dir _ h]
  simp

theorem parseForIncludes_identity_without_directives_witness :
    parseForIncludes selfFS "uniform float t;\n#pragma once\nvoid main();".toList
          "/s/".toList =
        some { output := emitLines (getlines "uniform float t;\n#pragma once\nvoid main();".toList)
               included := [], events := [] } ∧
      emitLines (getlines "uniform float t;\n#pragma once\nvoid main();".toList) =
        (if "uniform float t;\n#pragma once\nvoid main();".toList = [] ∨
            "uniform float t;\n#pragma once\nvoid main();".toList.getLast? = some '\n'
          then "uniform float t;\n#pragma once\nvoid main();".toList
          else "uniform float t;\n#pragma once\nvoid main();".toList ++ ['\n']) :=
  parseForIncludes_identity_without_directives selfFS _ "/s/".toList (by decide)

/-- C3: `parseForIncludes` terminates on every source and every file system, cyclic
ones included. A call at `level` needs at most `33 - level + 1` nested activations
(one, when `level` is above 32): with any fuel above `33 - level` the recursive overload
returns a result, and it is the result obtained with exactly `33 - level + 1`. -/
theorem parseForIncludes_terminates (fs : FileSystem) (fuel level : Nat) (source : Str)
    (included : List Str) (dir : Str) (h : 33 - level < fuel) :
    ∃ r, parseForIncludesAux fs fuel source included level dir = some r ∧
      parseForIncludesAux fs (33 - level + 1) source included level dir = some r := by
  obtain ⟨r, hr⟩ := parseForIncludesAux_total fs fuel level h source included dir
  refine ⟨r, hr, ?_⟩
  rw [← hr]
  exact parseForIncludesAux_fuel fs (33 - level + 1) fuel level (by omega) h source included dir

theorem parseForIncludes_terminates_witness :
    33 - 0 < 34 ∧
      ∃ r, parseForIncludesAux selfFS 34 "#pragma include \"a.glsl\"\n".toList [] 0
            "/s/".toList = some r ∧
        parseForIncludesAux selfFS (33 - 0 + 1) "#pragma include \"a.glsl\"\n".toList [] 0
            "/s/".toList = some r :=
  ⟨by decide, parseForIncludes_terminates selfFS 34 0 _ [] _ (by decide)⟩

theorem literal_append (p s : Str) : literal p (p ++ s) = some s := by
  induction p with
  | nil => cases s <;> rfl
  | cons a p ih => simp [literal, ih]

theorem spaces0_append (ws rest : Str) (hws : ∀ x ∈ ws, isSpace x = true) (c : Char)
    (hc : isSpace c = false) : spaces0 (ws ++ c :: rest) = c :: rest := by
  induction ws with
  | nil => simp [spaces0, List.dropWhile, hc]
  | cons a ws ih =>
    have ha : isSpace a = true := hws a (List.mem_cons_self _ _)
    have := ih (fun x hx => hws x (List.mem_cons_of_mem _ hx))
    simpa [spaces0, List.dropWhile, ha] using this

theorem spaces1_append (ws rest : Str) (hws : ∀ x ∈ ws, isSpace x = true) (hne : ws ≠ [])
    (c : Char) (hc : isSpace c = false) : spaces1 (ws ++ c :: rest) = some (c :: rest) := by
  cases ws with
  | nil => exact absurd rfl hne
  | cons a ws =>
    have ha : isSpace a = true := hws a (List.mem_cons_self _ _)
    simp only [List.cons_append, spaces1, ha, if_true]
    rw [spaces0_append ws rest (fun x hx => hws x (List.mem_cons_of_mem _ hx)) c hc]

/-- Without a closing delimiter the tail pattern fails. -/
theorem capturePath_none (s : Str) (h : ∀ x ∈ s, x ≠ '"' ∧ x ≠ '>') : capturePath s = none := by
  induction s with
  | nil => rfl
  | cons a s ih =>
    have ha := h a (List.mem_cons_self _ _)
    have hs := ih (fun x hx => h x (List.mem_cons_of_mem _ hx))
    simp [capturePath, hs, ha.1, ha.2]

/-- The group takes everything up to a delimiter after which no further delimiter follows. -/
theorem capturePath_last (path trail : Str) (c : Char) (hc : c = '"' ∨ c = '>')
    (hpath : ∀ x ∈ path, isDot x = true)
    (htrail : ∀ x ∈ trail, isDot x = true ∧ x ≠ '"' ∧ x ≠ '>') :
    capturePath (path ++ c :: trail) = some path := by
  induction path with
  | nil =>
    have hnone : capturePath trail = none :=
      capturePath_none trail (fun x hx => (htrail x hx).2)
    have hall : trail.all isDot = true := by
      rw [List.all_eq_true]; exact fun x hx => (htrail x hx).1
    simp [capturePath, hnone, hc, hall]
  | cons a path ih =>
    have ha : isDot a = true := hpath a (List.mem_cons_self _ _)
    have := ih (fun x hx => hpath x (List.mem_cons_of_mem _ hx))
    simp [capturePath, ha, this]

/-- C6 (the code at the failing input): trailing text that contains a `"` or a `>` is
not ignored. The pattern ends in `.*` to skip whatever follows the closing delimiter, but
the greedy group `(.*)` before it runs to the last delimiter of the line. So for the line
`#pragma include "a.glsl" // not "b.glsl"` the captured path is
`a.glsl" // not "b.glsl` instead of `a.glsl`: where the same directive without the
trailing comment includes the existing `/s/a.glsl`, this one probes the file
`/s/a.glsl" // not "b.glsl`, reports that it could not be opened and writes nothing. -/
theorem trailing_text_changes_included_file :
    regexMatch "#pragma include \"a.glsl\"".toList = some "a.glsl".toList ∧
      regexMatch "#pragma include \"a.glsl\" // not \"b.glsl\"".toList =
        some "a.glsl\" // not \"b.glsl".toList ∧
      parseForIncludes oneFileFS "#pragma include \"a.glsl\"\n".toList "/s/".toList =
        some
          { output := "A\n\n".toList
            included := ["/s/a.glsl".toList]
            events := [Event.ofBufferFromFile "/s/a.glsl".toList] } ∧
      parseForIncludes oneFileFS "#pragma include \"a.glsl\" // not \"b.glsl\"\n".toList
          "/s/".toList =
        some
          { output := []
            included := ["/s/a.glsl\" // not \"b.glsl".toList]
            events :=
              [Event.ofBufferFromFile "/s/a.glsl\" // not \"b.glsl".toList,
                Event.log "error" couldNotOpenMsg "/s/a.glsl\" // not \"b.glsl".toList []] } := by
  decide

theorem regexMatch_of_form (line path : Str) (h : IsIncludeLine line path) :
    regexMatch line = some path := by
  obtain ⟨ws1, ws2, ws3, ws4, trail, o, c, h1, h2, h3, h4, hne3, hne4, ho, hc, hpath, htrail,
    rfl⟩ := h
  have e1 : spaces0 (ws1 ++ '#' :: (ws2 ++ ("pragma".toList ++ (ws3 ++ ("include".toList ++
      (ws4 ++ o :: (path ++ c :: trail))))))) =
      '#' :: (ws2 ++ ("pragma".toList ++ (ws3 ++ ("include".toList ++
        (ws4 ++ o :: (path ++ c :: trail)))))) :=
    spaces0_append ws1 _ h1 '#' (by decide)
  have e2 : spaces0 (ws2 ++ ("pragma".toList ++ (ws3 ++ ("include".toList ++
      (ws4 ++ o :: (path ++ c :: trail)))))) =
      "pragma".toList ++ (ws3 ++ ("include".toList ++ (ws4 ++ o :: (path ++ c :: trail)))) :=
    spaces0_append ws2 _ h2 'p' (by decide)
  have e3 : spaces1 (ws3 ++ ("include".toList ++ (ws4 ++ o :: (path ++ c :: trail)))) =
      some ("include".toList ++ (ws4 ++ o :: (path ++ c :: trail))) :=
    spaces1_append ws3 _ h3 hne3 'i' (by decide)
  have ho' : isSpace o = false := by rcases ho with rfl | rfl <;> decide
  have e4 : spaces1 (ws4 ++ o :: (path ++ c :: trail)) = some (o :: (path ++ c :: trail)) :=
    spaces1_append ws4 _ h4 hne4 o ho'
  have e5 : openDelim (o :: (path ++ c :: trail)) = some (path ++ c :: trail) := by
    simp [openDelim, ho]
  have e6 := capturePath_last path trail c hc hpath htrail
  have l1 : ∀ s : Str, literal ['#'] ('#' :: s) = some s := fun s => literal_append ['#'] s
  simp only [regexMatch, e1, l1, e2, literal_append, e3, e4, e5, e6, Option.bind_eq_bind,
    Option.some_bind]

theorem spaces0_inv (s : Str) : ∃ ws, (∀ x ∈ ws, isSpace x = true) ∧ s = ws ++ spaces0 s :=
  ⟨s.takeWhile isSpace, fun _ hx => List.mem_takeWhile_imp hx,
    (List.takeWhile_append_dropWhile isSpace s).symm⟩

theorem spaces1_inv (s r : Str) (h : spaces1 s = some r) :
    ∃ ws, ws ≠ [] ∧ (∀ x ∈ ws, isSpace x = true) ∧ s = ws ++ r := by
  cases s with
  | nil => simp [spaces1] at h
  | cons a s =>
    by_cases ha : isSpace a = true
    · simp only [spaces1, ha, if_true, Option.some.injEq] at h
      obtain ⟨ws, hws, hs⟩ := spaces0_inv s
      refine ⟨a :: ws, by simp, ?_, ?_⟩
      · intro x hx
        rcases List.mem_cons.mp hx with rfl | hx
        · exact ha
        · exact hws x hx
      · rw [List.cons_append, ← h, ← hs]
    · simp [spaces1, ha] at h

theorem literal_inv (p : Str) : ∀ (s r : Str), literal p s = some r → s = p ++ r := by
  induction p with
  | nil =>
    intro s r h
    cases s <;> simp [literal] at h <;> simp [h]
  | cons a p ih =>
    intro s r h
    cases s with
    | nil => simp [literal] at h
    | cons b s =>
      by_cases hab : a = b
      · subst hab
        simp only [literal, if_true] at h
        rw [ih s r h]; rfl
      · simp [literal, hab] at h

theorem openDelim_inv (s r : Str) (h : openDelim s = some r) :
    ∃ o, (o = '"' ∨ o = '<') ∧ s = o :: r := by
  cases s with
  | nil => simp [openDelim] at h
  | cons a s =>
    by_cases ha : a = '"' ∨ a = '<'
    · simp only [openDelim, ha, if_true, Option.some.injEq] at h
      exact ⟨a, ha, by rw [h]⟩
    · simp [openDelim, ha] at h

theorem capturePath_none_inv (s : Str) (hall : s.all isDot = true) (h : capturePath s = none) :
    ∀ x ∈ s, x ≠ '"' ∧ x ≠ '>' := by
  induction s with
  | nil => intro x hx; simp at hx
  | cons a s ih =>
    simp only [List.all_cons, Bool.and_eq_true] at hall
    simp only [capturePath, hall.1, if_true] at h
    cases hc : capturePath s with
    | some cap => simp [hc] at h
    | none =>
      simp only [hc, hall.2, and_true, ite_eq_right_iff] at h
      intro x hx
      rcases List.mem_cons.mp hx with rfl | hx
      · constructor
        · intro e; exact absurd (h (Or.inl e)) (by simp)
        · intro e; exact absurd (h (Or.inr e)) (by simp)
      · exact ih hall.2 hc x hx

theorem capturePath_inv (s : Str) :
    ∀ cap, capturePath s = some cap →
      ∃ c trail, (c = '"' ∨ c = '>') ∧ s = cap ++ c :: trail ∧
        (∀ x ∈ cap, isDot x = true) ∧ (∀ x ∈ trail, isDot x = true ∧ x ≠ '"' ∧ x ≠ '>') := by
  induction s with
  | nil => intro cap h; simp [capturePath] at h
  | cons a s ih =>
    intro cap h
    simp only [capturePath] at h
    cases hin : (if isDot a = true then capturePath s else none) with
    | some cap' =>
      simp only [hin, Option.some.injEq] at h
      have ha : isDot a = true := by
        by_contra hna
        simp [hna] at hin
      simp only [ha, if_true] at hin
      obtain ⟨c, trail, hc, hs, hcap, htrail⟩ := ih cap' hin
      refine ⟨c, trail, hc, ?_, ?_, htrail⟩
      · rw [← h, hs]; rfl
      · rw [← h]
        intro x hx
        rcases List.mem_cons.mp hx with rfl | hx
        · exact ha
        · exact hcap x hx
    | none =>
      simp only [hin] at h
      by_cases hd : (a = '"' ∨ a = '>') ∧ s.all isDot = true
      · simp only [hd, and_self, if_true, Option.some.injEq] at h
        have ha : isDot a = true := by rcases hd.1 with rfl | rfl <;> decide
        simp only [ha, if_true] at hin
        have hno := capturePath_none_inv s hd.2 hin
        refine ⟨a, s, hd.1, by rw [← h]; rfl, by rw [← h]; intro x hx; simp at hx, ?_⟩
        intro x hx
        exact ⟨List.all_eq_true.mp hd.2 x hx, hno x hx⟩
      · rw [if_neg hd] at h
        exact absurd h (by simp)

/-- Every line `regexMatch` accepts has the shape `IsIncludeLine`, with the capture
group as its `path`: the matcher accepts nothing the pattern does not. -/
theorem form_of_regexMatch (line path : Str) (h : regexMatch line = some path) :
    IsIncludeLine line path := by
  simp only [regexMatch, Option.bind_eq_bind, Option.bind_eq_some] at h
  obtain ⟨s1, h1, s2, h2, s3, h3, s4, h4, s5, h5, s6, h6, h7⟩ := h
  obtain ⟨ws1, hws1, e1⟩ := spaces0_inv line
  have f1 := literal_inv _ _ _ h1
  obtain ⟨ws2, hws2, e2⟩ := spaces0_inv s1
  have f2 := literal_inv _ _ _ h2
  obtain ⟨ws3, hne3, hws3, e3⟩ := spaces1_inv _ _ h3
  have f4 := literal_inv _ _ _ h4
  obtain ⟨ws4, hne4, hws4, e5⟩ := spaces1_inv _ _ h5
  obtain ⟨o, ho, e6⟩ := openDelim_inv _ _ h6
  obtain ⟨c, trail, hc, e7, hpath, htrail⟩ := capturePath_inv _ _ h7
  refine ⟨ws1, ws2, ws3, ws4, trail, o, c, hws1, hws2, hws3, hws4, hne3, hne4, ho, hc, hpath,
    htrail, ?_⟩
  rw [e1, f1, e2, f2, e3, f4, e5, e6, e7]
  rfl

/-! ## Claims about the count tables -/

/-- C8: `retainShader` and `retainProgram` leave everything as it is for handle 0; for a
non-zero handle the table of that kind afterwards maps the handle to its previous count
plus one, or to 1 if it had no entry, every other entry of that table is unchanged, and
the table of the other kind (and the record of side effects) is unchanged. -/
theorem retain_spec (id : GLuint) (w : GLWorld) :
    (id = 0 → retainShader id w = w ∧ retainProgram id w = w) ∧
      (id ≠ 0 →
        ((retainShader id w).shaderIds id =
            some (match w.shaderIds id with
              | some c => c + 1
              | none => 1) ∧
          (∀ k, k ≠ id → (retainShader id w).shaderIds k = w.shaderIds k) ∧
          (retainShader id w).programIds = w.programIds ∧
          (retainShader id w).events = w.events) ∧
        ((retainProgram id w).programIds id =
            some (match w.programIds id with
              | some c => c + 1
              | none => 1) ∧
          (∀ k, k ≠ id → (retainProgram id w).programIds k = w.programIds k) ∧
          (retainProgram id w).shaderIds = w.shaderIds ∧
          (retainProgram id w).events = w.events)) := by
  constructor
  · intro h
    simp [retainShader, retainProgram, h]
  · intro h
    refine ⟨⟨?_, ?_, ?_, ?_⟩, ⟨?_, ?_, ?_, ?_⟩⟩
    · simp only [retainShader, h, if_false]
      cases w.shaderIds id <;> simp [IdTable.set]
    · intro k hk
      simp only [retainShader, h, if_false]
      cases w.shaderIds id <;> simp [IdTable.set, hk]
    · simp only [retainShader, h, if_false]
      cases w.shaderIds id <;> rfl
    · simp only [retainShader, h, if_false]
      cases w.shaderIds id <;> rfl
    · simp only [retainProgram, h, if_false]
      cases w.programIds id <;> simp [IdTable.set]
    · intro k hk
      simp only [retainProgram, h, if_false]
      cases w.programIds id <;> simp [IdTable.set, hk]
    · simp only [retainProgram, h, if_false]
      cases w.programIds id <;> rfl
    · simp only [retainProgram, h, if_false]
      cases w.programIds id <;> rfl

theorem retain_spec_witness :
    (retainShader 5 (retainShader 5 GLWorld.empty)).shaderIds 5 = some 2 ∧
      (retainProgram 7 GLWorld.empty).programIds 7 = some 1 ∧
      retainShader 0 GLWorld.empty = GLWorld.empty :=
  ⟨((retain_spec 5 (retainShader 5 GLWorld.empty)).2 (by decide)).1.1,
    ((retain_spec 7 GLWorld.empty).2 (by decide)).2.1,
    ((retain_spec 0 GLWorld.empty).1 rfl).1⟩

/-- C9: `releaseShader` and `releaseProgram`. With a stored count `c > 1` the count
becomes `c - 1` and nothing else changes (no native call). With a stored count of 1 the
native deletion is issued (detach, then delete, for a stage; delete for a program) and
the entry is removed. With no entry a warning is logged, the same native deletion is
still issued, and both tables are unchanged. -/
theorem release_spec (program id : GLuint) (w : GLWorld) :
    (∀ c : Int, 1 < c →
        (w.shaderIds id = some c →
          releaseShader program id w =
            { shaderIds := w.shaderIds.set id (some (c - 1)), programIds := w.programIds,
              events := w.events }) ∧
        (w.programIds id = some c →
          releaseProgram id w =
            { shaderIds := w.shaderIds, programIds := w.programIds.set id (some (c - 1)),
              events := w.events })) ∧
      (w.shaderIds id = some 1 →
        releaseShader program id w =
          { shaderIds := w.shaderIds.set id none, programIds := w.programIds,
            events := w.events ++ [Event.glDetachShader program id, Event.glDeleteShader id] }) ∧
      (w.programIds id = some 1 →
        releaseProgram id w =
          { shaderIds := w.shaderIds, programIds := w.programIds.set id none,
            events := w.events ++ [Event.glDeleteProgram id] }) ∧
      (w.shaderIds id = none →
        releaseShader program id w =
          { shaderIds := w.shaderIds, programIds := w.programIds,
            events := w.events ++
              [Event.log "warning" unknownShaderMsg [] [id, program],
                Event.glDetachShader program id, Event.glDeleteShader id] }) ∧
      (w.programIds id = none →
        releaseProgram id w =
          { shaderIds := w.shaderIds, programIds := w.programIds,
            events := w.events ++
              [Event.log "warning" unknownProgramMsg [] [id], Event.glDeleteProgram id] }) := by
  refine ⟨?_, ?_, ?_, ?_, ?_⟩
  · intro c hc
    have hne : ¬ (c - 1 = 0) := by omega
    constructor
    · intro h
      simp [releaseShader, h, hne]
    · intro h
      simp [releaseProgram, h, hne]
  · intro h
    simp [releaseShader, h]
  · intro h
    simp [releaseProgram, h]
  · intro h
    simp [releaseShader, h, GLWorld.emit]
  · intro h
    simp [releaseProgram, h, GLWorld.emit]

theorem release_spec_witness :
    (releaseShader 7 5 (retainShader 5 (retainShader 5 GLWorld.empty))).events = [] ∧
      (releaseShader 7 5 (retainShader 5 GLWorld.empty)).events =
        [Event.glDetachShader 7 5, Event.glDeleteShader 5] ∧
      (releaseProgram 7 GLWorld.empty).events =
        [Event.log "warning" unknownProgramMsg [] [7], Event.glDeleteProgram 7] :=
  ⟨by
      rw [((release_spec 7 5 (retainShader 5 (retainShader 5 GLWorld.empty))).1 2
        (by decide)).1 (by decide)]
      rfl,
    by
      rw [(release_spec 7 5 (retainShader 5 GLWorld.empty)).2.1 (by decide)]
      rfl,
    by
      rw [(release_spec 7 7 GLWorld.empty).2.2.2.2 rfl]
      rfl⟩

/-! ## The loaded flag -/

theorem unload_bLoaded (s : ofShader) (w : GLWorld) : (unload s w).1.bLoaded = false := by
  unfold unload
  split
  · split <;> rfl
  · rfl

theorem checkAndCreateProgram_bLoaded (cap : Bool) (created : GLuint) (s : ofShader)
    (w : GLWorld) : (checkAndCreateProgram cap created s w).1.bLoaded = s.bLoaded := by
  unfold checkAndCreateProgram
  split
  · split <;> rfl
  · rfl

theorem checkAndCreateProgram_program (created : GLuint) (s : ofShader) (w : GLWorld)
    (h : created ≠ 0) : (checkAndCreateProgram true created s w).1.program ≠ 0 := by
  unfold checkAndCreateProgram
  by_cases hp : s.program = 0
  · simp [hp, h]
  · simp [hp]

theorem setupShaderFromSource_bLoaded (fs : FileSystem) (nat : SetupNative) (type : GLenum)
    (source dir : Str) (s : ofShader) (w : GLWorld) :
    (setupShaderFromSource fs nat type source dir s w).2.1.bLoaded = false := by
  have h1 := unload_bLoaded s w
  have h2 := checkAndCreateProgram_bLoaded nat.capability nat.createdProgram (unload s w).1
    (unload s w).2
  rw [h1] at h2
  simp only [setupShaderFromSource]
  split
  · exact h2
  · split
    · exact h2
    · split
      · exact h2
      · split
        · exact h2
        · exact h2

theorem linkProgram_loaded (nat : LinkNative) (s : ofShader) (w : GLWorld)
    (hcap : nat.capability = true) (hcreated : nat.createdProgram ≠ 0)
    (hs : s.bLoaded = true → s.program ≠ 0) :
    (linkProgram nat s w).2.1.bLoaded = true → (linkProgram nat s w).2.1.program ≠ 0 := by
  simp only [linkProgram]
  split
  · exact hs
  · intro _
    rw [hcap]
    exact checkAndCreateProgram_program nat.createdProgram s w hcreated

theorem copyConstruct_fields (mom : ofShader) (w : GLWorld) :
    (copyConstruct mom w).1.program = mom.program ∧
      (copyConstruct mom w).1.bLoaded = mom.bLoaded ∧
      (copyConstruct mom w).1.shaders = mom.shaders := by
  unfold copyConstruct
  split <;> exact ⟨rfl, rfl, rfl⟩

theorem assign_fields (self mom : ofShader) (w : GLWorld) :
    (assign self mom w).1.program = mom.program ∧
      (assign self mom w).1.bLoaded = mom.bLoaded ∧
      (assign self mom w).1.shaders = mom.shaders := by
  unfold assign
  split
  split <;> exact ⟨rfl, rfl, rfl⟩

theorem mem_set_cases {α : Type} (l : List α) (i : Nat) (a b : α) (h : b ∈ l.set i a) :
    b ∈ l ∨ b = a := by
  induction l generalizing i with
  | nil => simp at h
  | cons x xs ih =>
    cases i with
    | zero =>
      simp only [List.set_cons_zero, List.mem_cons] at h
      rcases h with h | h
      · exact Or.inr h
      · exact Or.inl (List.mem_cons_of_mem _ h)
    | succ i =>
      simp only [List.set_cons_succ, List.mem_cons] at h
      rcases h with h | h
      · exact Or.inl (h ▸ List.mem_cons_self _ _)
      · rcases ih i h with h | h
        · exact Or.inl (List.mem_cons_of_mem _ h)
        · exact Or.inr h

theorem step_preserves (fs : FileSystem) (sys : System) (op : Op) (hop : op.linkOk = true)
    (hinv : LoadedHasProgram sys) : LoadedHasProgram (System.step fs sys op) := by
  cases op with
  | construct =>
    intro s hs
    simp only [System.step, List.mem_append, List.mem_singleton] at hs
    rcases hs with hs | hs
    · exact hinv s hs
    · subst hs; intro h; simp [ofShader.new] at h
  | setupShaderFromSource i nat type source dir =>
    simp only [System.step]
    cases hget : sys.objs.get? i with
    | none => exact hinv
    | some s0 =>
      intro s hs
      rcases mem_set_cases _ _ _ _ hs with hs | hs
      · exact hinv s hs
      · subst hs
        intro h
        rw [setupShaderFromSource_bLoaded] at h
        exact absurd h (by decide)
  | linkProgram i nat =>
    simp only [Op.linkOk, Bool.and_eq_true, decide_eq_true_eq] at hop
    simp only [System.step]
    cases hget : sys.objs.get? i with
    | none => exact hinv
    | some s0 =>
      intro s hs
      rcases mem_set_cases _ _ _ _ hs with hs | hs
      · exact hinv s hs
      · subst hs
        exact linkProgram_loaded nat s0 sys.world hop.1 hop.2
          (hinv s0 (List.get?_mem hget))
  | unload i =>
    simp only [System.step]
    cases hget : sys.objs.get? i with
    | none => exact hinv
    | some s0 =>
      intro s hs
      rcases mem_set_cases _ _ _ _ hs with hs | hs
      · exact hinv s hs
      · subst hs
        intro h
        rw [unload_bLoaded] at h
        exact absurd h (by decide)
  | copyConstruct mom =>
    simp only [System.step]
    cases hget : sys.objs.get? mom with
    | none => exact hinv
    | some m =>
      intro s hs
      simp only [List.mem_append, List.mem_singleton] at hs
      rcases hs with hs | hs
      · exact hinv s hs
      · subst hs
        obtain ⟨hp, hb, _⟩ := copyConstruct_fields m sys.world
        rw [hp, hb]
        exact hinv m (List.get?_mem hget)
  | assign self mom =>
    simp only [System.step]
    split
    · exact hinv
    · cases hself : sys.objs.get? self with
      | none => exact hinv
      | some s0 =>
        cases hmom : sys.objs.get? mom with
        | none => exact hinv
        | some m =>
          intro s hs
          rcases mem_set_cases _ _ _ _ hs with hs | hs
          · exact hinv s hs
          · subst hs
            obtain ⟨hp, hb, _⟩ := assign_fields s0 m sys.world
            rw [hp, hb]
            exact hinv m (List.get?_mem hmom)

theorem foldl_preserves (fs : FileSystem) (ops : List Op) :
    ∀ sys : System, (∀ op ∈ ops, op.linkOk = true) → LoadedHasProgram sys →
      LoadedHasProgram (ops.foldl (System.step fs) sys) := by
  induction ops with
  | nil => intro sys _ h; exact h
  | cons op ops ih =>
    intro sys hops h
    exact ih _ (fun o ho => hops o (List.mem_cons_of_mem _ ho))
      (step_preserves fs sys op (hops op (List.mem_cons_self _ _)) h)

/-- C10 (as stated, refuted): when `glCreateProgram` returns 0 while the stage compiles,
`setupShaderFromSource` followed by `linkProgram` leaves the wrapper with
`bLoaded == true` and `program == 0`. -/
theorem loaded_with_program_zero :
    ((System.run oneFileFS
        [Op.setupShaderFromSource 0 noProgramSetup 35633 "void main();\n".toList "/s/".toList,
          Op.linkProgram 0 noProgramLink]).objs.map
        (fun s => (s.bLoaded, s.program))) = [(true, 0)] := by
  decide

/-- C10 (amended): if in every `linkProgram` call the driver supports program objects
and `glCreateProgram`, when called, returns a non-zero name, then in every state
reachable from the default-constructed wrapper by default construction,
`setupShaderFromSource`, `linkProgram`, `unload`, copy construction and assignment,
whatever else the native calls return, every wrapper with `bLoaded == true` has
`program != 0`. -/
theorem loaded_implies_program (fs : FileSystem) (ops : List Op)
    (hops : ∀ op ∈ ops, op.linkOk = true) :
    ∀ s ∈ (System.run fs ops).objs, s.bLoaded = true → s.program ≠ 0 := by
  have h0 : LoadedHasProgram System.init := by
    intro s hs
    simp only [System.init, List.mem_singleton] at hs
    subst hs; intro h; simp [ofShader.new] at h
  exact foldl_preserves fs ops System.init hops h0

theorem loaded_implies_program_witness :
    [Op.setupShaderFromSource 0 goodSetup 35633 "void main();\n".toList "/s/".toList,
        Op.linkProgram 0 goodLink, Op.copyConstruct 0, Op.construct, Op.assign 2 1,
        Op.unload 0].all Op.linkOk = true ∧
      ((System.run oneFileFS
        [Op.setupShaderFromSource 0 goodSetup 35633 "void main();\n".toList "/s/".toList,
          Op.linkProgram 0 goodLink, Op.copyConstruct 0, Op.construct, Op.assign 2 1,
          Op.unload 0]).objs.map (fun s => (s.bLoaded, s.program))) =
        [(false, 0), (true, 7), (true, 7)] ∧
      ({ program := 7, bLoaded := true, shaders := [(35633, 5)], shaderSource := [],
          uniformLocations := [] } : ofShader).program ≠ 0 :=
  ⟨by decide, by decide,
    loaded_implies_program oneFileFS
      [Op.setupShaderFromSource 0 goodSetup 35633 "void main();\n".toList "/s/".toList,
        Op.linkProgram 0 goodLink, Op.copyConstruct 0, Op.construct, Op.assign 2 1,
        Op.unload 0] (by decide)
      { program := 7, bLoaded := true, shaders := [(35633, 5)], shaderSource := [],
        uniformLocations := [] } (by decide) rfl⟩

/-! ## Shared ownership -/

theorem retainShader_programIds (id : GLuint) (w : GLWorld) :
    (retainShader id w).programIds = w.programIds := by
  unfold retainShader
  split
  · rfl
  · split <;> rfl

theorem releaseShader_programIds (program id : GLuint) (w : GLWorld) :
    (releaseShader program id w).programIds = w.programIds := by
  unfold releaseShader
  split
  · split <;> rfl
  · rfl

theorem releaseProgram_shaderIds (id : GLuint) (w : GLWorld) :
    (releaseProgram id w).shaderIds = w.shaderIds := by
  unfold releaseProgram
  split
  · split <;> rfl
  · rfl

theorem retainProgram_shaderIds (id : GLuint) (w : GLWorld) :
    (retainProgram id w).shaderIds = w.shaderIds := by
  unfold retainProgram
  split
  · rfl
  · split <;> rfl

theorem retainProgram_events (id : GLuint) (w : GLWorld) :
    (retainProgram id w).events = w.events := by
  unfold retainProgram
  split
  · rfl
  · split <;> rfl

theorem TableOk_mono (n m : Nat) (t : IdTable) (h : n ≤ m) (ht : TableOk n t) : TableOk m t := by
  intro k c hk
  obtain ⟨h1, h2, h3⟩ := ht k c hk
  exact ⟨h1, h2, by omega⟩

theorem TableOk_retain (n : Nat) (t : IdTable) (id : GLuint) (hid : id ≠ 0)
    (ht : TableOk n t) :
    TableOk (n + 1) (t.set id (some (match t id with
      | some c => c + 1
      | none => 1))) := by
  intro k c hk
  by_cases hkid : k = id
  · subst hkid
    cases hold : t k with
    | none =>
      simp only [IdTable.set, if_true, hold, Option.some.injEq] at hk
      subst hk
      exact ⟨hid, by omega, by push_cast; omega⟩
    | some c0 =>
      simp only [IdTable.set, if_true, hold, Option.some.injEq] at hk
      obtain ⟨_, h2, h3⟩ := ht k c0 hold
      subst hk
      exact ⟨hid, by omega, by push_cast; omega⟩
  · simp only [IdTable.set, hkid, if_false] at hk
    obtain ⟨h1, h2, h3⟩ := ht k c hk
    exact ⟨h1, h2, by push_cast; omega⟩

theorem TableOk_release (n : Nat) (t : IdTable) (id : GLuint) (c0 : Int) (hold : t id = some c0)
    (ht : TableOk n t) :
    TableOk (n + 1) (t.set id (if c0 - 1 = 0 then none else some (c0 - 1))) := by
  intro k c hk
  by_cases hkid : k = id
  · subst hkid
    obtain ⟨h1, h2, h3⟩ := ht k c0 hold
    simp only [IdTable.set, if_true] at hk
    by_cases hz : c0 - 1 = 0
    · simp [hz] at hk
    · simp only [hz, if_false, Option.some.injEq] at hk
      subst hk
      exact ⟨h1, by omega, by push_cast; omega⟩
  · simp only [IdTable.set, hkid, if_false] at hk
    obtain ⟨h1, h2, h3⟩ := ht k c hk
    exact ⟨h1, h2, by push_cast; omega⟩

theorem retainShader_table (id : GLuint) (w : GLWorld) (hid : id ≠ 0) :
    (retainShader id w).shaderIds = w.shaderIds.set id (some (match w.shaderIds id with
      | some c => c + 1
      | none => 1)) := by
  simp only [retainShader, hid, if_false]
  cases w.shaderIds id <;> rfl

theorem retainProgram_table (id : GLuint) (w : GLWorld) (hid : id ≠ 0) :
    (retainProgram id w).programIds = w.programIds.set id (some (match w.programIds id with
      | some c => c + 1
      | none => 1)) := by
  simp only [retainProgram, hid, if_false]
  cases w.programIds id <;> rfl

theorem retainProgram_programIds_zero (w : GLWorld) : retainProgram 0 w = w := by
  simp [retainProgram]

theorem releaseShader_table (program id : GLuint) (w : GLWorld) (c0 : Int)
    (hold : w.shaderIds id = some c0) :
    (releaseShader program id w).shaderIds =
      w.shaderIds.set id (if c0 - 1 = 0 then none else some (c0 - 1)) := by
  simp only [releaseShader, hold]
  split <;> rfl

theorem releaseShader_table_none (program id : GLuint) (w : GLWorld)
    (hold : w.shaderIds id = none) : (releaseShader program id w).shaderIds = w.shaderIds := by
  simp [releaseShader, hold, GLWorld.emit]

theorem releaseProgram_table (id : GLuint) (w : GLWorld) (c0 : Int)
    (hold : w.programIds id = some c0) :
    (releaseProgram id w).programIds =
      w.programIds.set id (if c0 - 1 = 0 then none else some (c0 - 1)) := by
  simp only [releaseProgram, hold]
  split <;> rfl

theorem releaseProgram_table_none (id : GLuint) (w : GLWorld)
    (hold : w.programIds id = none) : (releaseProgram id w).programIds = w.programIds := by
  simp [releaseProgram, hold, GLWorld.emit]

theorem CountOp_apply_ok (op : CountOp) (n : Nat) (w : GLWorld)
    (hs : TableOk n w.shaderIds) (hp : TableOk n w.programIds) :
    TableOk (n + 1) (op.apply w).shaderIds ∧ TableOk (n + 1) (op.apply w).programIds := by
  have hs' := TableOk_mono n (n + 1) _ (Nat.le_succ n) hs
  have hp' := TableOk_mono n (n + 1) _ (Nat.le_succ n) hp
  cases op with
  | retainShader id =>
    simp only [CountOp.apply]
    rw [retainShader_programIds]
    refine ⟨?_, hp'⟩
    by_cases hid : id = 0
    · subst hid; simpa [retainShader] using hs'
    · rw [retainShader_table id w hid]
      exact TableOk_retain n _ id hid hs
  | releaseShader program id =>
    simp only [CountOp.apply]
    rw [releaseShader_programIds]
    refine ⟨?_, hp'⟩
    cases hold : w.shaderIds id with
    | none => rw [releaseShader_table_none program id w hold]; exact hs'
    | some c0 =>
      rw [releaseShader_table program id w c0 hold]
      exact TableOk_release n _ id c0 hold hs
  | retainProgram id =>
    simp only [CountOp.apply]
    rw [retainProgram_shaderIds]
    refine ⟨hs', ?_⟩
    by_cases hid : id = 0
    · subst hid; rw [retainProgram_programIds_zero]; exact hp'
    · rw [retainProgram_table id w hid]
      exact TableOk_retain n _ id hid hp
  | releaseProgram id =>
    simp only [CountOp.apply]
    rw [releaseProgram_shaderIds]
    refine ⟨hs', ?_⟩
    cases hold : w.programIds id with
    | none => rw [releaseProgram_table_none id w hold]; exact hp'
    | some c0 =>
      rw [releaseProgram_table id w c0 hold]
      exact TableOk_release n _ id c0 hold hp

theorem foldl_counts_ok (ops : List CountOp) :
    ∀ (n : Nat) (w : GLWorld), TableOk n w.shaderIds → TableOk n w.programIds →
      TableOk (n + ops.length) (ops.foldl (fun w op => op.apply w) w).shaderIds ∧
      TableOk (n + ops.length) (ops.foldl (fun w op => op.apply w) w).programIds := by
  induction ops with
  | nil => intro n w hs hp; exact ⟨hs, hp⟩
  | cons op ops ih =>
    intro n w hs hp
    obtain ⟨h1, h2⟩ := CountOp_apply_ok op n w hs hp
    have := ih (n + 1) (op.apply w) h1 h2
    simp only [List.foldl_cons, List.length_cons]
    have e : n + (ops.length + 1) = n + 1 + ops.length := by omega
    rw [e]
    exact this

/-- C17: after any sequence of `retainShader` / `retainProgram` / `releaseShader` /
`releaseProgram` calls from empty tables, every entry of either table has a non-zero key
and a strictly positive count; the count is also at most the number of calls made, so a
sequence of fewer than 2^31 calls never takes an `int` count out of range. -/
theorem counts_stay_positive (ops : List CountOp) (k : GLuint) (c : Int)
    (h : (runCounts ops).shaderIds k = some c ∨ (runCounts ops).programIds k = some c) :
    k ≠ 0 ∧ 0 < c ∧ c ≤ (ops.length : Int) := by
  have h0 : TableOk 0 GLWorld.empty.shaderIds ∧ TableOk 0 GLWorld.empty.programIds := by
    constructor <;> intro k c hk <;> simp [GLWorld.empty] at hk
  obtain ⟨hs, hp⟩ := foldl_counts_ok ops 0 GLWorld.empty h0.1 h0.2
  rw [Nat.zero_add] at hs hp
  rcases h with h | h
  · exact hs k c h
  · exact hp k c h

theorem counts_stay_positive_witness :
    (runCounts
        [CountOp.retainShader 0, CountOp.retainShader 5, CountOp.retainShader 5,
          CountOp.releaseProgram 3, CountOp.releaseShader 7 5]).shaderIds 5 = some 1 ∧
      (5 : GLuint) ≠ 0 ∧ (0 : Int) < 1 ∧
      (1 : Int) ≤
        ([CountOp.retainShader 0, CountOp.retainShader 5, CountOp.retainShader 5,
          CountOp.releaseProgram 3, CountOp.releaseShader 7 5].length : Int) :=
  ⟨by decide,
    counts_stay_positive
      [CountOp.retainShader 0, CountOp.retainShader 5, CountOp.retainShader 5,
        CountOp.releaseProgram 3, CountOp.releaseShader 7 5] 5 1 (Or.inl (by decide))⟩

/-! ## Linking -/

theorem checkAndCreateProgram_shaders (cap : Bool) (created : GLuint) (s : ofShader)
    (w : GLWorld) : (checkAndCreateProgram cap created s w).1.shaders = s.shaders := by
  unfold checkAndCreateProgram
  split
  · split <;> rfl
  · rfl

theorem checkAndCreateProgram_result (nat : LinkNative) (s : ofShader) (w : GLWorld) :
    (checkAndCreateProgram nat.capability nat.createdProgram s w).1 =
      { s with program := linkedProgram nat s } := by
  unfold checkAndCreateProgram linkedProgram
  by_cases hc : nat.capability = true
  · by_cases hp : s.program = 0
    · simp [hc, hp]
    · simp [hc, hp]
  · simp [hc]

theorem checkAndCreateProgram_attach (cap : Bool) (created : GLuint) (s : ofShader)
    (w : GLWorld) :
    (checkAndCreateProgram cap created s w).2.events.filter isAttachOrLink =
      w.events.filter isAttachOrLink := by
  unfold checkAndCreateProgram
  split
  · split
    · rw [retainProgram_events]
      simp [GLWorld.emit, List.filter_append, List.filter_cons, isAttachOrLink]
    · rfl
  · simp [GLWorld.emit, List.filter_append, List.filter_cons, isAttachOrLink]

theorem checkProgramLinkStatus_attach (nat : LinkNative) (program : GLuint) (w : GLWorld) :
    (checkProgramLinkStatus nat program w).2.events.filter isAttachOrLink =
      w.events.filter isAttachOrLink := by
  unfold checkProgramLinkStatus checkProgramInfoLog
  split
  · simp [GLWorld.emit, List.filter_append, List.filter_cons, isAttachOrLink]
  · split
    · simp [GLWorld.emit, List.filter_append, List.filter_cons, isAttachOrLink]
    · split
      · split <;> simp [GLWorld.emit, List.filter_append, List.filter_cons, isAttachOrLink]
      · simp [GLWorld.emit, List.filter_append, List.filter_cons, isAttachOrLink]

theorem attachShaders_attach (program : GLuint) (L : UMap GLenum GLuint) :
    ∀ w : GLWorld, (attachShaders program L w).events.filter isAttachOrLink =
      w.events.filter isAttachOrLink ++ attachCalls program L := by
  induction L with
  | nil => intro w; simp [attachShaders, attachCalls]
  | cons e L ih =>
    intro w
    obtain ⟨t, h⟩ := e
    by_cases hz : h = 0
    · subst hz
      simpa [attachShaders, attachCalls] using ih w
    · simp only [attachShaders, ne_eq, hz, not_false_eq_true, if_true]
      rw [ih]
      simp [GLWorld.emit, List.filter_append, List.filter_cons, isAttachOrLink, attachCalls, hz]

/-- C11: when at least one stage is registered, `linkProgram` attaches every registered
non-zero stage handle to the program, in the order of the stage map, then issues the
native link on that program, sets `bLoaded` and returns `true`, whatever the link status
and the error query report; the wrapper otherwise keeps its members (the program is the
one `checkAndCreateProgram` leaves in place). -/
theorem linkProgram_with_stages (nat : LinkNative) (s : ofShader) (w : GLWorld)
    (h : s.shaders ≠ []) :
    (linkProgram nat s w).1 = true ∧
      (linkProgram nat s w).2.1 = { s with program := linkedProgram nat s, bLoaded := true } ∧
      (linkProgram nat s w).2.2.events.filter isAttachOrLink =
        w.events.filter isAttachOrLink ++ attachCalls (linkedProgram nat s) s.shaders ++
          [Event.glLinkProgram (linkedProgram nat s)] := by
  have hne : s.shaders.isEmpty = false := by
    cases hs : s.shaders with
    | nil => exact absurd hs h
    | cons a l => rfl
  have hres := checkAndCreateProgram_result nat s w
  simp only [linkProgram, hne, Bool.false_eq_true, if_false]
  refine ⟨trivial, ?_, ?_⟩
  · rw [hres]
  · rw [checkProgramLinkStatus_attach]
    simp only [GLWorld.emit, List.filter_append]
    rw [attachShaders_attach, checkAndCreateProgram_attach, hres]
    simp [List.filter_cons, isAttachOrLink]

theorem linkProgram_with_stages_witness :
    ((linkProgram failingLink twoStageShader GLWorld.empty).1 = true ∧
      (linkProgram failingLink twoStageShader GLWorld.empty).2.1 =
        { twoStageShader with
          program := linkedProgram failingLink twoStageShader, bLoaded := true } ∧
      (linkProgram failingLink twoStageShader GLWorld.empty).2.2.events.filter isAttachOrLink =
        GLWorld.empty.events.filter isAttachOrLink ++
          attachCalls (linkedProgram failingLink twoStageShader) twoStageShader.shaders ++
          [Event.glLinkProgram (linkedProgram failingLink twoStageShader)]) ∧
      GLWorld.empty.events.filter isAttachOrLink ++
          attachCalls (linkedProgram failingLink twoStageShader) twoStageShader.shaders ++
          [Event.glLinkProgram (linkedProgram failingLink twoStageShader)] =
        [Event.glAttachShader 7 5, Event.glAttachShader 7 6, Event.glLinkProgram 7] :=
  ⟨linkProgram_with_stages failingLink twoStageShader GLWorld.empty (by decide), by decide⟩

/-! ## Stage setup -/

theorem NotRaised_refl (t : IdTable) : NotRaised t t := by
  intro k
  cases h : t k with
  | none => exact Or.inl rfl
  | some c => exact Or.inr ⟨c, c, rfl, rfl, le_refl c⟩

theorem NotRaised_trans (t1 t2 t3 : IdTable) (h12 : NotRaised t1 t2) (h23 : NotRaised t2 t3) :
    NotRaised t1 t3 := by
  intro k
  rcases h23 k with h | ⟨c2, c3, e2, e3, le23⟩
  · exact Or.inl h
  · rcases h12 k with h | ⟨c1, c2', e1, e2', le12⟩
    · rw [h] at e2; exact absurd e2 (by simp)
    · rw [e2'] at e2
      have : c2' = c2 := by simpa using e2
      subst this
      exact Or.inr ⟨c1, c3, e1, e3, le_trans le23 le12⟩

theorem releaseShader_notRaised (program id : GLuint) (w : GLWorld) :
    NotRaised w.shaderIds (releaseShader program id w).shaderIds := by
  cases hold : w.shaderIds id with
  | none =>
    rw [releaseShader_table_none program id w hold]
    exact NotRaised_refl _
  | some c0 =>
    rw [releaseShader_table program id w c0 hold]
    intro k
    by_cases hk : k = id
    · subst hk
      by_cases hz : c0 - 1 = 0
      · left; simp [IdTable.set, hz]
      · right
        exact ⟨c0, c0 - 1, hold, by simp [IdTable.set, hz], by omega⟩
    · simp only [IdTable.set, hk, if_false]
      exact NotRaised_refl _ k

theorem unloadShaders_notRaised (program : GLuint) (L : UMap GLenum GLuint) :
    ∀ w : GLWorld, NotRaised w.shaderIds (unloadShaders program L w).shaderIds := by
  induction L with
  | nil => intro w; exact NotRaised_refl _
  | cons e L ih =>
    intro w
    obtain ⟨t, h⟩ := e
    simp only [unloadShaders]
    split
    · exact NotRaised_trans _ _ _
        (releaseShader_notRaised program h
          (w.emit [Event.log "verbose" "unload(): detaching and deleting shader from program" []
            [t, program]]))
        (ih _)
    · exact ih w

theorem unload_notRaised (s : ofShader) (w : GLWorld) :
    NotRaised w.shaderIds (unload s w).2.shaderIds := by
  unfold unload
  split
  · split
    · rw [releaseProgram_shaderIds]
      exact unloadShaders_notRaised _ _ _
    · exact unloadShaders_notRaised _ _ _
  · exact NotRaised_refl _

theorem checkAndCreateProgram_shaderIds (cap : Bool) (created : GLuint) (s : ofShader)
    (w : GLWorld) : (checkAndCreateProgram cap created s w).2.shaderIds = w.shaderIds := by
  unfold checkAndCreateProgram
  split
  · split
    · rw [retainProgram_shaderIds]; rfl
    · rfl
  · rfl

theorem checkShaderInfoLog_shaderIds (infoLength : GLint) (shader : GLuint) (type : GLenum)
    (level : String) (s : ofShader) (w : GLWorld) :
    (checkShaderInfoLog infoLength shader type level s w).shaderIds = w.shaderIds := by
  unfold checkShaderInfoLog
  split
  · split <;> rfl
  · rfl

/-- The outcome of `setupShaderFromSource` when it returns `false`: the stage map and the
shader count table are the ones left by the initial `unload()`. -/
theorem setupShaderFromSource_false (fs : FileSystem) (nat : SetupNative) (type : GLenum)
    (source dir : Str) (s : ofShader) (w : GLWorld)
    (h : (setupShaderFromSource fs nat type source dir s w).1 = false) :
    (setupShaderFromSource fs nat type source dir s w).2.1.shaders = (unload s w).1.shaders ∧
      (setupShaderFromSource fs nat type source dir s w).2.2.shaderIds =
        (unload s w).2.shaderIds := by
  have hsh := checkAndCreateProgram_shaders nat.capability nat.createdProgram (unload s w).1
    (unload s w).2
  have hid := checkAndCreateProgram_shaderIds nat.capability nat.createdProgram (unload s w).1
    (unload s w).2
  simp only [setupShaderFromSource] at h ⊢
  split
  · split <;> exact ⟨hsh, hid⟩
  · split
    · split <;> exact ⟨hsh, hid⟩
    · split
      · rename_i h1 h2 h3
        simp [h1, h2, h3] at h
      · split
        · refine ⟨hsh, ?_⟩
          rw [checkShaderInfoLog_shaderIds]
          split <;> exact hid
        · rename_i h1 h2 h3 h4
          simp [h1, h2, h3, h4] at h

theorem setupShaderFromSource_false_iff (fs : FileSystem) (nat : SetupNative) (type : GLenum)
    (source dir : Str) (s : ofShader) (w : GLWorld) :
    (setupShaderFromSource fs nat type source dir s w).1 = false ↔
      (nat.createdShader = 0 ∨ nat.err ≠ GL_NO_ERROR ∨ nat.status = GL_FALSE) := by
  have hTF : ¬ GL_TRUE = GL_FALSE := by decide
  have hFT : ¬ GL_FALSE = GL_TRUE := by decide
  simp only [setupShaderFromSource]
  by_cases h1 : nat.createdShader = 0
  · simp [h1]
  · by_cases h2 : nat.err = GL_NO_ERROR
    · by_cases h3 : nat.status = GL_TRUE
      · simp [h1, h2, h3, hTF]
      · by_cases h4 : nat.status = GL_FALSE
        · simp [h1, h2, h4, hFT]
        · simp [h1, h2, h3, h4]
    · simp [h1, h2]

/-- C12: `setupShaderFromSource` returns `false` exactly when the stage could not be
created, the error query after the status query reported an error, or the compile status
is `GL_FALSE`; and whenever it returns `false` the new handle is not registered: the
stage map is the one left by the initial `unload()`, the shader count table is the one
left by that `unload()`, and compared with the table before the call it has no new entry
and no raised count. -/
theorem failed_setup_registers_nothing (fs : FileSystem) (nat : SetupNative) (type : GLenum)
    (source dir : Str) (s : ofShader) (w : GLWorld) :
    ((setupShaderFromSource fs nat type source dir s w).1 = false ↔
        (nat.createdShader = 0 ∨ nat.err ≠ GL_NO_ERROR ∨ nat.status = GL_FALSE)) ∧
      ((setupShaderFromSource fs nat type source dir s w).1 = false →
        (setupShaderFromSource fs nat type source dir s w).2.1.shaders =
            (unload s w).1.shaders ∧
          (setupShaderFromSource fs nat type source dir s w).2.2.shaderIds =
            (unload s w).2.shaderIds ∧
          NotRaised w.shaderIds
            (setupShaderFromSource fs nat type source dir s w).2.2.shaderIds) := by
  refine ⟨setupShaderFromSource_false_iff fs nat type source dir s w, ?_⟩
  intro h
  obtain ⟨h1, h2⟩ := setupShaderFromSource_false fs nat type source dir s w h
  refine ⟨h1, h2, ?_⟩
  rw [h2]
  exact unload_notRaised s w

theorem failed_setup_registers_nothing_witness :
    (setupShaderFromSource oneFileFS failedCompile 36313 "void main();\n".toList "/s/".toList
        twoStageShader ownerWorld).1 = false ∧
      (setupShaderFromSource oneFileFS failedCompile 36313 "void main();\n".toList "/s/".toList
          twoStageShader ownerWorld).2.1.shaders = (unload twoStageShader ownerWorld).1.shaders ∧
      (setupShaderFromSource oneFileFS failedCompile 36313 "void main();\n".toList "/s/".toList
          twoStageShader ownerWorld).2.2.shaderIds = (unload twoStageShader ownerWorld).2.shaderIds ∧
      NotRaised ownerWorld.shaderIds
        (setupShaderFromSource oneFileFS failedCompile 36313 "void main();\n".toList
          "/s/".toList twoStageShader ownerWorld).2.2.shaderIds :=
  ⟨by decide,
    (failed_setup_registers_nothing oneFileFS failedCompile 36313 "void main();\n".toList
      "/s/".toList twoStageShader ownerWorld).2 (by decide)⟩

/-! ## Linking without stages -/

theorem linkProgram_stages (nat : LinkNative) (s : ofShader) (w : GLWorld)
    (hs : s.bLoaded = true → s.shaders ≠ []) :
    (linkProgram nat s w).2.1.bLoaded = true → (linkProgram nat s w).2.1.shaders ≠ [] := by
  simp only [linkProgram]
  split
  · exact hs
  · rename_i hne
    intro _
    rw [checkAndCreateProgram_shaders]
    intro hnil
    rw [hnil] at hne
    exact hne rfl

theorem step_preserves_stages (fs : FileSystem) (sys : System) (op : Op)
    (hinv : LoadedHasStages sys) : LoadedHasStages (System.step fs sys op) := by
  cases op with
  | construct =>
    intro s hs
    simp only [System.step, List.mem_append, List.mem_singleton] at hs
    rcases hs with hs | hs
    · exact hinv s hs
    · subst hs; intro h; simp [ofShader.new] at h
  | setupShaderFromSource i nat type source dir =>
    simp only [System.step]
    cases hget : sys.objs.get? i with
    | none => exact hinv
    | some s0 =>
      intro s hs
      rcases mem_set_cases _ _ _ _ hs with hs | hs
      · exact hinv s hs
      · subst hs
        intro h
        rw [setupShaderFromSource_bLoaded] at h
        exact absurd h (by decide)
  | linkProgram i nat =>
    simp only [System.step]
    cases hget : sys.objs.get? i with
    | none => exact hinv
    | some s0 =>
      intro s hs
      rcases mem_set_cases _ _ _ _ hs with hs | hs
      · exact hinv s hs
      · subst hs
        exact linkProgram_stages nat s0 sys.world (hinv s0 (List.get?_mem hget))
  | unload i =>
    simp only [System.step]
    cases hget : sys.objs.get? i with
    | none => exact hinv
    | some s0 =>
      intro s hs
      rcases mem_set_cases _ _ _ _ hs with hs | hs
      · exact hinv s hs
      · subst hs
        intro h
        rw [unload_bLoaded] at h
        exact absurd h (by decide)
  | copyConstruct mom =>
    simp only [System.step]
    cases hget : sys.objs.get? mom with
    | none => exact hinv
    | some m =>
      intro s hs
      simp only [List.mem_append, List.mem_singleton] at hs
      rcases hs with hs | hs
      · exact hinv s hs
      · subst hs
        obtain ⟨_, hb, hsh⟩ := copyConstruct_fields m sys.world
        rw [hb, hsh]
        exact hinv m (List.get?_mem hget)
  | assign self mom =>
    simp only [System.step]
    split
    · exact hinv
    · cases hself : sys.objs.get? self with
      | none => exact hinv
      | some s0 =>
        cases hmom : sys.objs.get? mom with
        | none => exact hinv
        | some m =>
          intro s hs
          rcases mem_set_cases _ _ _ _ hs with hs | hs
          · exact hinv s hs
          · subst hs
            obtain ⟨_, hb, hsh⟩ := assign_fields s0 m sys.world
            rw [hb, hsh]
            exact hinv m (List.get?_mem hmom)

theorem foldl_preserves_stages (fs : FileSystem) (ops : List Op) :
    ∀ sys : System, LoadedHasStages sys →
      LoadedHasStages (ops.foldl (System.step fs) sys) := by
  induction ops with
  | nil => intro sys h; exact h
  | cons op ops ih =>
    intro sys h
    exact ih _ (step_preserves_stages fs sys op h)

theorem run_loadedHasStages (fs : FileSystem) (ops : List Op) :
    LoadedHasStages (System.run fs ops) := by
  have h0 : LoadedHasStages System.init := by
    intro s hs
    simp only [System.init, List.mem_singleton] at hs
    subst hs; intro h; simp [ofShader.new] at h
  exact foldl_preserves_stages fs ops System.init h0

/-- C13: for every wrapper reachable from the default-constructed one (by default
construction, `setupShaderFromSource`, `linkProgram`, `unload`, copy construction and
assignment, whatever the driver answers) that has no registered stage, `linkProgram`
returns `false` and leaves the wrapper as it is, with `bLoaded == false` and the program
handle unchanged; both count tables are unchanged and the only side effect is the
"no shaders" error line, so no native create, attach or link call is issued. -/
theorem linkProgram_without_stages (fs : FileSystem) (ops : List Op) (nat : LinkNative)
    (s : ofShader) (w : GLWorld) (hs : s ∈ (System.run fs ops).objs) (hempty : s.shaders = []) :
    s.bLoaded = false ∧
      linkProgram nat s w =
        (false, s,
          { shaderIds := w.shaderIds, programIds := w.programIds,
            events := w.events ++ [Event.log "error" noShadersMsg [] []] }) := by
  have hl : s.bLoaded = false := by
    cases hb : s.bLoaded with
    | false => rfl
    | true => exact absurd hempty (run_loadedHasStages fs ops s hs hb)
  refine ⟨hl, ?_⟩
  simp [linkProgram, hempty, hl, GLWorld.emit, noShadersMsg]

theorem linkProgram_without_stages_witness :
    ({ program := 7, bLoaded := false, shaders := [],
        shaderSource := [(35633, "A\n\n".toList)], uniformLocations := [] } : ofShader).bLoaded
        = false ∧
      linkProgram goodLink
          { program := 7, bLoaded := false, shaders := [],
            shaderSource := [(35633, "A\n\n".toList)], uniformLocations := [] }
          GLWorld.empty =
        (false,
          { program := 7, bLoaded := false, shaders := [],
            shaderSource := [(35633, "A\n\n".toList)], uniformLocations := [] },
          { shaderIds := GLWorld.empty.shaderIds, programIds := GLWorld.empty.programIds,
            events := GLWorld.empty.events ++ [Event.log "error" noShadersMsg [] []] }) :=
  linkProgram_without_stages oneFileFS
    [Op.setupShaderFromSource 0 { failedCompile with createdShader := 5 } 35633
      "#pragma include \"a.glsl\"\n".toList "/s/".toList]
    goodLink _ GLWorld.empty (by decide) rfl

/-! ## Unloading -/

theorem unloadShaders_eq_releaseStages (program : GLuint) (L : UMap GLenum GLuint) :
    ∀ w : GLWorld, unloadShaders program L w = releaseStages program L w := by
  induction L with
  | nil => intro w; rfl
  | cons e L ih =>
    intro w
    obtain ⟨t, h⟩ := e
    by_cases hz : h = 0
    · subst hz
      simpa [unloadShaders, releaseStages] using ih w
    · simp only [unloadShaders, ne_eq, hz, not_false_eq_true, if_true]
      rw [ih]
      simp [releaseStages, List.filter_cons, hz]

/-- C14 (as stated, refuted): after a successful `setupShaderFromSource` that has not
been linked, `unload()` releases nothing and resets nothing: the program handle is still
7, the stage is still registered, both counts are still 1 and no delete call has been
issued. After a link, `unload()` does release and reset, but the source map still holds
the source of the stage. -/
theorem unload_keeps_unlinked_stages_and_sources :
    ((System.run oneFileFS
        [Op.setupShaderFromSource 0 goodSetup 35633 "void main();\n".toList "/s/".toList,
          Op.unload 0]).objs.map (fun s => (s.program, s.shaders, s.bLoaded)) =
        [(7, [(35633, 5)], false)] ∧
      (System.run oneFileFS
        [Op.setupShaderFromSource 0 goodSetup 35633 "void main();\n".toList "/s/".toList,
          Op.unload 0]).world.shaderIds 5 = some 1 ∧
      (System.run oneFileFS
        [Op.setupShaderFromSource 0 goodSetup 35633 "void main();\n".toList "/s/".toList,
          Op.unload 0]).world.programIds 7 = some 1 ∧
      (System.run oneFileFS
        [Op.setupShaderFromSource 0 goodSetup 35633 "void main();\n".toList "/s/".toList,
          Op.unload 0]).world.events.filter isDelete = []) ∧
      (System.run oneFileFS
        [Op.setupShaderFromSource 0 goodSetup 35633 "void main();\n".toList "/s/".toList,
          Op.linkProgram 0 goodLink, Op.unload 0]).objs =
        [{ program := 0, bLoaded := false, shaders := [],
           shaderSource := [(35633, "void main();\n".toList)], uniformLocations := [] }] := by
  decide

/-- C14 (amended): from a loaded wrapper, `unload()` calls `releaseShader` once for every
registered non-zero stage handle and then `releaseProgram` once for the program handle
when that is non-zero, and afterwards `program == 0`, the stage map and the
uniform-location cache are empty and `bLoaded == false`, while the source map is left as
it was. From a wrapper that is not loaded (empty, or stages set up but not linked)
`unload()` releases nothing and changes nothing. -/
theorem unload_spec (s : ofShader) (w : GLWorld) :
    (s.bLoaded = true →
        (unload s w).1 =
            { program := 0, bLoaded := false, shaders := [], shaderSource := s.shaderSource,
              uniformLocations := [] } ∧
          (unload s w).2 =
            (if s.program ≠ 0 then
              releaseProgram s.program (releaseStages s.program s.shaders w)
            else releaseStages s.program s.shaders w)) ∧
      (s.bLoaded = false → unload s w = (s, w)) := by
  constructor
  · intro h
    by_cases hp : s.program = 0
    · simp [unload, h, hp, unloadShaders_eq_releaseStages]
    · simp [unload, h, hp, unloadShaders_eq_releaseStages]
  · intro h
    cases s with
    | mk program bLoaded shaders shaderSource uniformLocations =>
      simp only at h
      subst h
      simp [unload]

theorem unload_spec_witness :
    ((unload ownerShader ownerWorld).1 =
          { program := 0, bLoaded := false, shaders := [],
            shaderSource := ownerShader.shaderSource, uniformLocations := [] } ∧
        (unload ownerShader ownerWorld).2 =
          (if ownerShader.program ≠ 0 then
            releaseProgram ownerShader.program
              (releaseStages ownerShader.program ownerShader.shaders ownerWorld)
          else releaseStages ownerShader.program ownerShader.shaders ownerWorld)) ∧
      unload twoStageShader ownerWorld = (twoStageShader, ownerWorld) ∧
      (unload ownerShader ownerWorld).2.events.filter isDelete =
        [Event.glDeleteShader 5, Event.glDeleteShader 6, Event.glDeleteProgram 7] :=
  ⟨(unload_spec ownerShader ownerWorld).1 (by decide),
    (unload_spec twoStageShader ownerWorld).2 (by decide), by decide⟩

/-! ## Uniform locations -/

theorem lookup_assign_same (m : UMap Str GLint) (k : Str) (v : GLint) :
    (m.assign k v).lookup k = some v := by
  induction m with
  | nil => simp [UMap.assign, List.lookup]
  | cons e m ih =>
    obtain ⟨k', v'⟩ := e
    by_cases h : k' = k
    · simp [UMap.assign, h, List.lookup]
    · have h' : (k == k') = false := by
        simp only [beq_eq_false_iff_ne, ne_eq]
        exact fun e => h e.symm
      simp only [UMap.assign, h, if_false, List.lookup, h']
      exact ih

theorem lookup_assign_other (m : UMap Str GLint) (k k' : Str) (v : GLint) (hne : k' ≠ k) :
    (m.assign k v).lookup k' = m.lookup k' := by
  induction m with
  | nil =>
    have h' : (k' == k) = false := by simpa using hne
    simp [UMap.assign, List.lookup, h']
  | cons e m ih =>
    obtain ⟨k0, v0⟩ := e
    by_cases h : k0 = k
    · subst h
      have h' : (k' == k0) = false := by simpa using hne
      simp [UMap.assign, List.lookup, h']
    · simp only [UMap.assign, h, if_false, List.lookup]
      cases hb : (k' == k0) with
      | true => rfl
      | false => exact ih

theorem getUniformLocation_hit (q : GLint) (name : Str) (s : ofShader) (w : GLWorld)
    (v : GLint) (hl : s.bLoaded = true) (hc : s.uniformLocations.lookup name = some v) :
    getUniformLocation q name s w = (v, s, w) := by
  simp [getUniformLocation, hl, hc]

theorem getUniformLocation_miss (q : GLint) (name : Str) (s : ofShader) (w : GLWorld)
    (hl : s.bLoaded = true) (hc : s.uniformLocations.lookup name = none) :
    getUniformLocation q name s w =
      (q, { s with uniformLocations := s.uniformLocations.assign name q },
        w.emit [Event.glGetUniformLocation s.program name]) := by
  simp [getUniformLocation, hl, hc]

/-- A cached location stays cached, with the same value, across a lookup of any name. -/
theorem getUniformLocation_keeps (q : GLint) (name' name : Str) (s : ofShader) (w : GLWorld)
    (v : GLint) (hl : s.bLoaded = true) (hc : s.uniformLocations.lookup name = some v) :
    (getUniformLocation q name' s w).2.1.bLoaded = true ∧
      (getUniformLocation q name' s w).2.1.uniformLocations.lookup name = some v := by
  cases hc' : s.uniformLocations.lookup name' with
  | some v' =>
    rw [getUniformLocation_hit q name' s w v' hl hc']
    exact ⟨hl, hc⟩
  | none =>
    rw [getUniformLocation_miss q name' s w hl hc']
    refine ⟨hl, ?_⟩
    have hne : name ≠ name' := by
      intro e
      rw [e, hc'] at hc
      exact absurd hc (by simp)
    simp only
    rw [lookup_assign_other _ _ _ _ hne]
    exact hc

theorem setUniform_wrapper (call : UniformCall) (q : GLint) (name : Str) (s : ofShader)
    (w : GLWorld) (hl : s.bLoaded = true) :
    (setUniform call q name s w).1 = (getUniformLocation q name s w).2.1 := by
  simp only [setUniform, hl, if_true]
  split <;> rfl

theorem runUniformOps_keeps (ops : List UniformOp) (name : Str) (v : GLint) :
    ∀ (s : ofShader) (w : GLWorld), s.bLoaded = true →
      s.uniformLocations.lookup name = some v →
      (runUniformOps ops s w).1.bLoaded = true ∧
        (runUniformOps ops s w).1.uniformLocations.lookup name = some v := by
  induction ops with
  | nil => intro s w hl hc; exact ⟨hl, hc⟩
  | cons op ops ih =>
    intro s w hl hc
    have hstep : (op.apply (s, w)).1.bLoaded = true ∧
        (op.apply (s, w)).1.uniformLocations.lookup name = some v := by
      cases op with
      | get name' q => exact getUniformLocation_keeps q name' name s w v hl hc
      | set call name' q =>
        simp only [UniformOp.apply]
        rw [setUniform_wrapper call q name' s w hl]
        exact getUniformLocation_keeps q name' name s w v hl hc
    have := ih (op.apply (s, w)).1 (op.apply (s, w)).2 hstep.1 hstep.2
    simpa [runUniformOps] using this

/-- C15: `getUniformLocation` memoises. On a wrapper that is not loaded it returns -1,
issues no query and leaves the cache alone. On a loaded wrapper, a call for a name that
is not in the cache issues one `glGetUniformLocation` query and stores the answer,
whatever it is (-1 included), under that name; and whatever the first call for a name
returned, a later call for that name, after any lookups and value-setter calls for any
names in between, returns the same value without a query and without changing anything. -/
theorem getUniformLocation_memoises (q : GLint) (name : Str) (s : ofShader) (w : GLWorld) :
    (s.bLoaded = false → getUniformLocation q name s w = (-1, s, w)) ∧
      (s.bLoaded = true → s.uniformLocations.lookup name = none →
        getUniformLocation q name s w =
            (q, { s with uniformLocations := s.uniformLocations.assign name q },
              w.emit [Event.glGetUniformLocation s.program name]) ∧
          (s.uniformLocations.assign name q).lookup name = some q) ∧
      (s.bLoaded = true → ∀ (ops : List UniformOp) (q' : GLint),
        getUniformLocation q' name
            (runUniformOps ops (getUniformLocation q name s w).2.1
              (getUniformLocation q name s w).2.2).1
            (runUniformOps ops (getUniformLocation q name s w).2.1
              (getUniformLocation q name s w).2.2).2 =
          ((getUniformLocation q name s w).1,
            (runUniformOps ops (getUniformLocation q name s w).2.1
              (getUniformLocation q name s w).2.2).1,
            (runUniformOps ops (getUniformLocation q name s w).2.1
              (getUniformLocation q name s w).2.2).2)) := by
  refine ⟨?_, ?_, ?_⟩
  · intro hl
    simp [getUniformLocation, hl]
  · intro hl hc
    exact ⟨getUniformLocation_miss q name s w hl hc, lookup_assign_same _ _ _⟩
  · intro hl ops q'
    have hfirst : (getUniformLocation q name s w).2.1.bLoaded = true ∧
        (getUniformLocation q name s w).2.1.uniformLocations.lookup name =
          some (getUniformLocation q name s w).1 := by
      cases hc : s.uniformLocations.lookup name with
      | some v =>
        rw [getUniformLocation_hit q name s w v hl hc]
        exact ⟨hl, hc⟩
      | none =>
        rw [getUniformLocation_miss q name s w hl hc]
        exact ⟨hl, lookup_assign_same _ _ _⟩
    obtain ⟨k1, k2⟩ := runUniformOps_keeps ops name _ _ (getUniformLocation q name s w).2.2
      hfirst.1 hfirst.2
    exact getUniformLocation_hit q' name _ _ _ k1 k2

theorem getUniformLocation_memoises_witness :
    getUniformLocation 3 "t".toList ofShader.new GLWorld.empty = (-1, ofShader.new, GLWorld.empty) ∧
      (getUniformLocation (-1) "t".toList linkedShader GLWorld.empty =
          (-1,
            { linkedShader with
              uniformLocations := linkedShader.uniformLocations.assign "t".toList (-1) },
            GLWorld.empty.emit [Event.glGetUniformLocation linkedShader.program "t".toList]) ∧
        (linkedShader.uniformLocations.assign "t".toList (-1)).lookup "t".toList =
          some (-1)) ∧
      getUniformLocation 4 "t".toList
          (runUniformOps
            [UniformOp.get "u".toList 2, UniformOp.set (UniformCall.glUniform1f 0) "t".toList 9]
            (getUniformLocation (-1) "t".toList linkedShader GLWorld.empty).2.1
            (getUniformLocation (-1) "t".toList linkedShader GLWorld.empty).2.2).1
          (runUniformOps
            [UniformOp.get "u".toList 2, UniformOp.set (UniformCall.glUniform1f 0) "t".toList 9]
            (getUniformLocation (-1) "t".toList linkedShader GLWorld.empty).2.1
            (getUniformLocation (-1) "t".toList linkedShader GLWorld.empty).2.2).2 =
        ((getUniformLocation (-1) "t".toList linkedShader GLWorld.empty).1,
          (runUniformOps
            [UniformOp.get "u".toList 2, UniformOp.set (UniformCall.glUniform1f 0) "t".toList 9]
            (getUniformLocation (-1) "t".toList linkedShader GLWorld.empty).2.1
            (getUniformLocation (-1) "t".toList linkedShader GLWorld.empty).2.2).1,
          (runUniformOps
            [UniformOp.get "u".toList 2, UniformOp.set (UniformCall.glUniform1f 0) "t".toList 9]
            (getUniformLocation (-1) "t".toList linkedShader GLWorld.empty).2.1
            (getUniformLocation (-1) "t".toList linkedShader GLWorld.empty).2.2).2) :=
  ⟨(getUniformLocation_memoises 3 "t".toList ofShader.new GLWorld.empty).1 (by decide),
    (getUniformLocation_memoises (-1) "t".toList linkedShader GLWorld.empty).2.1 (by decide)
      (by decide),
    (getUniformLocation_memoises (-1) "t".toList linkedShader GLWorld.empty).2.2 (by decide)
      [UniformOp.get "u".toList 2, UniformOp.set (UniformCall.glUniform1f 0) "t".toList 9] 4⟩

/-- C16: every value setter (the setter is identified by the native call it would issue)
does nothing at all on a wrapper that is not loaded; on a loaded wrapper whose name
resolves to -1 it does what the lookup does and nothing more: nothing when -1 was cached,
and one location query plus the cached -1 entry when the name was not cached and the
driver answers -1. No value-set call is issued and nothing is logged. -/
theorem setUniform_noop (call : UniformCall) (q : GLint) (name : Str) (s : ofShader)
    (w : GLWorld) :
    (s.bLoaded = false → setUniform call q name s w = (s, w)) ∧
      (s.bLoaded = true → (getUniformLocation q name s w).1 = -1 →
        setUniform call q name s w = (getUniformLocation q name s w).2) ∧
      (s.bLoaded = true → s.uniformLocations.lookup name = some (-1) →
        setUniform call q name s w = (s, w)) ∧
      (s.bLoaded = true → s.uniformLocations.lookup name = none →
        setUniform call (-1) name s w =
          ({ s with uniformLocations := s.uniformLocations.assign name (-1) },
            w.emit [Event.glGetUniformLocation s.program name])) := by
  refine ⟨?_, ?_, ?_, ?_⟩
  · intro hl
    simp [setUniform, hl]
  · intro hl h
    simp [setUniform, hl, h]
  · intro hl hc
    simp [setUniform, hl, getUniformLocation_hit q name s w (-1) hl hc]
  · intro hl hc
    simp [setUniform, hl, getUniformLocation_miss (-1) name s w hl hc]

theorem setUniform_noop_witness :
    setUniform (UniformCall.glUniform4f 1 2 3 4) 3 "t".toList twoStageShader GLWorld.empty =
        (twoStageShader, GLWorld.empty) ∧
      setUniform (UniformCall.glUniformMatrix4fv 1 [0]) (-1) "mvp".toList linkedShader
          GLWorld.empty =
        ({ linkedShader with
            uniformLocations := linkedShader.uniformLocations.assign "mvp".toList (-1) },
          GLWorld.empty.emit [Event.glGetUniformLocation linkedShader.program "mvp".toList]) ∧
      setUniform (UniformCall.glUniform1i 5) 3 "t".toList
          { linkedShader with uniformLocations := [("t".toList, -1)] } GLWorld.empty =
        ({ linkedShader with uniformLocations := [("t".toList, -1)] }, GLWorld.empty) :=
  ⟨(setUniform_noop (UniformCall.glUniform4f 1 2 3 4) 3 "t".toList twoStageShader
      GLWorld.empty).1 (by decide),
    (setUniform_noop (UniformCall.glUniformMatrix4fv 1 [0]) (-1) "mvp".toList linkedShader
      GLWorld.empty).2.2.2 (by decide) (by decide),
    (setUniform_noop (UniformCall.glUniform1i 5) 3 "t".toList
      { linkedShader with uniformLocations := [("t".toList, -1)] } GLWorld.empty).2.2.1
      (by decide) (by decide)⟩

end OfShader
